import Mathlib

/-!
Verification of the event-sourcing core of nao1215/micro: the event store
append protocol (internal/eventstore, db/eventstore), the media read-model
projector (internal/media/query, db/media), and the saga orchestrator
(internal/saga, db/saga).  Go code is shallowly embedded: SQL tables become
lists of row structures, sqlc queries become Lean functions on those lists,
HTTP handlers become functions from a request to a response plus the new
store state.  Wall-clock timestamps are modelled as natural numbers counting
nanoseconds since the epoch (Go time.Time zero value = 0); Go int64 fields
that are only ever non-negative in the modelled code paths (versions, sizes)
are modelled as Nat / Int, since no claim involves machine-integer overflow.
-/

namespace Micro

/-! ## Event store (db/eventstore/schema.sql, internal/eventstore server) -/

/-- One row of the `events` table (db/eventstore/schema.sql). -/
structure EventRow where
  id : String
  aggregate_id : String
  aggregate_type : String
  event_type : String
  data : String
  version : Nat
  created_at : Nat
deriving Repr, DecidableEq

/-- The `events` table, in insertion (rowid) order. -/
abbrev Log := List EventRow

/-- Versions of all events of one aggregate, in insertion order
(the projection used by the queries below). -/
def versionsOf (log : Log) (aggId : String) : List Nat :=
  (log.filter (fun e => e.aggregate_id = aggId)).map (fun e => e.version)

/-- Query GetLatestVersion (db/eventstore/query.sql):
SELECT COALESCE(MAX(version), 0) FROM events WHERE aggregate_id = ?. -/
def getLatestVersion (log : Log) (aggId : String) : Nat :=
  (versionsOf log aggId).foldl max 0

/-- Whether a row with the given (aggregate_id, version) pair is present:
the situation rejected by the unique index idx_events_aggregate_version. -/
def hasVersionPair (log : Log) (aggId : String) (v : Nat) : Bool :=
  log.any (fun e => e.aggregate_id = aggId && e.version = v)

/-- Query AppendEvent: INSERT INTO events ...  The insert succeeds unless the
unique index idx_events_aggregate_version rejects the (aggregate_id, version)
pair, or an injected infrastructure fault (I/O error, busy database, ...)
makes the INSERT fail for a reason other than the constraint.  `none` is the
Go error branch. -/
def appendEventInsert (log : Log) (row : EventRow) (infraFault : Bool) :
    Option Log :=
  if infraFault then none
  else if hasVersionPair log row.aggregate_id row.version then none
  else some (log ++ [row])

/-- The JSON body bound by handleAppendEvent (appendEventRequest).  Gin's
binding:"required" rejects a request in which a field is absent (`none`) or
has its zero value (the empty string / empty raw message). -/
structure AppendRequest where
  aggregate_id : Option String
  aggregate_type : Option String
  event_type : Option String
  data : Option String
deriving Repr, DecidableEq

/-- Whether ShouldBindJSON accepts the request: every required field is
present and non-empty. -/
def bindOk (req : AppendRequest) : Bool :=
  match req.aggregate_id, req.aggregate_type, req.event_type, req.data with
  | some a, some t, some e, some d =>
      !(a = "") && !(t = "") && !(e = "") && !(d = "")
  | _, _, _, _ => false

/-- The JSON bodies handleAppendEvent can answer with, abstracted from the
literal message strings of internal/eventstore/server.go. -/
inductive AppendBody where
  /-- 201: the stored event echoed back. -/
  | created (row : EventRow)
  /-- 400: the fixed invalid-request error message. -/
  | invalidRequest
  /-- 409: the fixed generic message (append failed, possibly a version
  conflict) — the same body for every insert error. -/
  | conflictGeneric
deriving Repr, DecidableEq

/-- Result of one run of the append handler: HTTP status, response body and
the state of the `events` table afterwards. -/
structure AppendOutcome where
  status : Nat
  body : AppendBody
  log : Log
deriving Repr, DecidableEq

/-- handleAppendEvent (internal/eventstore/server.go).  The handler performs
two separate database operations: it reads the latest version from a
`snapshot` of the table, adds one, then inserts into the `current` table.
Sequentially snapshot = current; a concurrent append that lands between the
two operations is modelled by letting current differ from snapshot.
`newId` and `now` stand for uuid.New() and time.Now().UTC(). -/
def handleAppendEvent (snapshot current : Log) (req : AppendRequest)
    (newId : String) (now : Nat) (infraFault : Bool) : AppendOutcome :=
  match req.aggregate_id, req.aggregate_type, req.event_type, req.data with
  | some aggId, some aggTy, some evTy, some data =>
      if !(aggId = "") && !(aggTy = "") && !(evTy = "") && !(data = "") then
        let newVersion := getLatestVersion snapshot aggId + 1
        let row : EventRow :=
          ⟨newId, aggId, aggTy, evTy, data, newVersion, now⟩
        match appendEventInsert current row infraFault with
        | some log2 => ⟨201, .created row, log2⟩
        | none => ⟨409, .conflictGeneric, current⟩
      else ⟨400, .invalidRequest, current⟩
  | _, _, _, _ => ⟨400, .invalidRequest, current⟩

/-- A sequential append (no concurrent writer, no infrastructure fault):
the snapshot the version is read from is the table the row is inserted
into. -/
def appendSeq (log : Log) (req : AppendRequest) (newId : String) (now : Nat) :
    AppendOutcome :=
  handleAppendEvent log log req newId now false

/-- Per-aggregate version invariant: the versions present for every
aggregate are exactly 1, 2, ..., N (in insertion order). -/
def versionInvariant (log : Log) : Prop :=
  ∀ aggId : String,
    versionsOf log aggId = List.range' 1 (getLatestVersion log aggId)

/-- Run a sequence of sequential appends against an initially empty log;
each request comes with its generated id and timestamp. -/
def runAppends (reqs : List (AppendRequest × String × Nat)) : Log :=
  reqs.foldl (fun log r => (appendSeq log r.1 r.2.1 r.2.2).log) []

/-- The closed event-type catalog (pkg/event constants). -/
def eventTypeCatalog : List String :=
  ["MediaUploaded", "MediaProcessed", "MediaProcessingFailed", "MediaDeleted",
   "MediaUploadCompensated", "AlbumCreated", "AlbumDeleted",
   "MediaAddedToAlbum", "MediaRemovedFromAlbum", "NotificationSent"]

/-- The closed aggregate-type catalog (pkg/event constants). -/
def aggregateTypeCatalog : List String := ["Media", "Album", "User"]

/-! ### Event store lemmas -/

theorem versionsOf_append (log : Log) (e : EventRow) (a : String) :
    versionsOf (log ++ [e]) a =
      versionsOf log a ++ (if e.aggregate_id = a then [e.version] else []) := by
  simp only [versionsOf, List.filter_append, List.map_append]
  by_cases h : e.aggregate_id = a <;> simp [h]

theorem foldl_max_le_init (l : List Nat) (init : Nat) :
    init ≤ l.foldl max init := by
  induction l generalizing init with
  | nil => exact le_refl _
  | cons x xs ih =>
      exact le_trans (le_max_left init x) (ih (max init x))

theorem mem_le_foldl_max (l : List Nat) (init x : Nat) (hx : x ∈ l) :
    x ≤ l.foldl max init := by
  induction l generalizing init with
  | nil => cases hx
  | cons y ys ih =>
      rcases List.mem_cons.mp hx with h | h
      · subst h
        exact le_trans (le_max_right init x) (foldl_max_le_init ys _)
      · exact ih _ h

theorem foldl_max_append (l₁ l₂ : List Nat) (init : Nat) :
    (l₁ ++ l₂).foldl max init = l₂.foldl max (l₁.foldl max init) := by
  simp [List.foldl_append]

theorem getLatestVersion_append (log : Log) (e : EventRow) (a : String) :
    getLatestVersion (log ++ [e]) a =
      if e.aggregate_id = a then max (getLatestVersion log a) e.version
      else getLatestVersion log a := by
  simp only [getLatestVersion, versionsOf_append]
  by_cases h : e.aggregate_id = a <;> simp [h, foldl_max_append]

theorem hasVersionPair_iff_mem (log : Log) (a : String) (v : Nat) :
    hasVersionPair log a v = true ↔ v ∈ versionsOf log a := by
  simp only [hasVersionPair, versionsOf, List.any_eq_true, List.mem_map,
    List.mem_filter, Bool.and_eq_true, decide_eq_true_eq]
  constructor
  · rintro ⟨e, he, ha, hv⟩
    exact ⟨e, ⟨he, by simp [ha]⟩, hv⟩
  · rintro ⟨e, ⟨he, ha⟩, hv⟩
    exact ⟨e, he, by simpa using ha, hv⟩

/-- The freshly computed version (current maximum plus one) never collides
with a version already present for the aggregate. -/
theorem hasVersionPair_latest_succ (log : Log) (a : String) :
    hasVersionPair log a (getLatestVersion log a + 1) = false := by
  by_contra h
  have hmem : getLatestVersion log a + 1 ∈ versionsOf log a :=
    (hasVersionPair_iff_mem log a _).mp (by
      cases hEq : hasVersionPair log a (getLatestVersion log a + 1) with
      | false => exact absurd hEq h
      | true => rfl)
  have hle : getLatestVersion log a + 1 ≤ getLatestVersion log a :=
    mem_le_foldl_max _ 0 _ hmem
  omega

/-- A sequential well-formed append always takes the success path: the new
row gets version max+1 and is appended at the end of the log. -/
theorem appendSeq_valid_eq (log : Log) (aggId aggTy evTy data newId : String)
    (now : Nat) (h1 : aggId ≠ "") (h2 : aggTy ≠ "") (h3 : evTy ≠ "")
    (h4 : data ≠ "") :
    appendSeq log ⟨some aggId, some aggTy, some evTy, some data⟩ newId now =
      ⟨201,
       .created ⟨newId, aggId, aggTy, evTy, data,
                 getLatestVersion log aggId + 1, now⟩,
       log ++ [⟨newId, aggId, aggTy, evTy, data,
                getLatestVersion log aggId + 1, now⟩]⟩ := by
  simp [appendSeq, handleAppendEvent, appendEventInsert, h1, h2, h3, h4,
    hasVersionPair_latest_succ]

/-- Binding failure leaves everything unchanged with a 400. -/
theorem handleAppendEvent_badRequest (snapshot current : Log)
    (req : AppendRequest) (newId : String) (now : Nat) (fault : Bool)
    (h : bindOk req = false) :
    handleAppendEvent snapshot current req newId now fault =
      ⟨400, .invalidRequest, current⟩ := by
  rcases req with ⟨a, t, e, d⟩
  cases a <;> cases t <;> cases e <;> cases d <;>
    simp_all [bindOk, handleAppendEvent]

/-- Every step of the sequential append protocol preserves the per-aggregate
version invariant. -/
theorem versionInvariant_step (log : Log) (req : AppendRequest)
    (newId : String) (now : Nat) (hInv : versionInvariant log) :
    versionInvariant (appendSeq log req newId now).log := by
  by_cases hb : bindOk req = true
  · rcases req with ⟨a, t, e, d⟩
    cases a with
    | none => simp [bindOk] at hb
    | some aggId =>
      cases t with
      | none => simp [bindOk] at hb
      | some aggTy =>
        cases e with
        | none => simp [bindOk] at hb
        | some evTy =>
          cases d with
          | none => simp [bindOk] at hb
          | some data =>
            simp only [bindOk, Bool.and_eq_true, Bool.not_eq_true',
              decide_eq_false_iff_not] at hb
            obtain ⟨⟨⟨h1, h2⟩, h3⟩, h4⟩ := hb
            rw [appendSeq_valid_eq log aggId aggTy evTy data newId now
              h1 h2 h3 h4]
            intro a
            simp only [versionsOf_append, getLatestVersion_append]
            by_cases ha : aggId = a
            · subst ha
              have hmax :
                  getLatestVersion log aggId ⊔ (getLatestVersion log aggId + 1)
                    = getLatestVersion log aggId + 1 :=
                Nat.max_eq_right (Nat.le_succ _)
              rw [if_pos rfl, if_pos rfl, hmax, List.range'_concat,
                hInv aggId]
              simp [Nat.add_comm]
            · simp only [if_neg ha]
              simpa using hInv a
  · rw [Bool.not_eq_true] at hb
    rw [appendSeq, handleAppendEvent_badRequest _ _ _ _ _ _ hb]
    exact hInv

/-- The version invariant is preserved by folding sequential appends over
any request list, from any invariant-satisfying starting log. -/
theorem versionInvariant_foldl (reqs : List (AppendRequest × String × Nat))
    (log : Log) (h : versionInvariant log) :
    versionInvariant
      (reqs.foldl (fun acc r => (appendSeq acc r.1 r.2.1 r.2.2).log) log) := by
  induction reqs generalizing log with
  | nil => exact h
  | cons r rs ih =>
      exact ih _ (versionInvariant_step _ _ _ _ h)

/-- The version invariant holds for every log built by sequential appends
from the empty log. -/
theorem versionInvariant_runAppends
    (reqs : List (AppendRequest × String × Nat)) :
    versionInvariant (runAppends reqs) := by
  have hnil : versionInvariant ([] : Log) := by
    intro a
    simp [versionsOf, getLatestVersion, versionInvariant]
  exact versionInvariant_foldl reqs [] hnil

/-- A racing writer landed a row with the pair the handler computed from its
stale snapshot: the insert is rejected by the unique index and the handler
answers 409 leaving the log unchanged. -/
theorem handleAppendEvent_conflict (snapshot current : Log)
    (aggId aggTy evTy data newId : String) (now : Nat)
    (h1 : aggId ≠ "") (h2 : aggTy ≠ "") (h3 : evTy ≠ "") (h4 : data ≠ "")
    (hdup : hasVersionPair current aggId
      (getLatestVersion snapshot aggId + 1) = true) :
    handleAppendEvent snapshot current
        ⟨some aggId, some aggTy, some evTy, some data⟩ newId now false =
      ⟨409, .conflictGeneric, current⟩ := by
  simp [handleAppendEvent, appendEventInsert, h1, h2, h3, h4, hdup]

/-- Any insert failure (here: an infrastructure fault unrelated to the
uniqueness constraint) is answered with the generic 409 conflict body and
leaves the log unchanged. -/
theorem handleAppendEvent_fault (snapshot current : Log)
    (aggId aggTy evTy data newId : String) (now : Nat)
    (h1 : aggId ≠ "") (h2 : aggTy ≠ "") (h3 : evTy ≠ "") (h4 : data ≠ "") :
    handleAppendEvent snapshot current
        ⟨some aggId, some aggTy, some evTy, some data⟩ newId now true =
      ⟨409, .conflictGeneric, current⟩ := by
  simp [handleAppendEvent, appendEventInsert, h1, h2, h3, h4]

/-- C1: Append assigns version = current maximum for the aggregate plus one
(0 if none), so sequential appends keep the per-aggregate version sets equal
to 1..N with no duplicates; an append whose computed (aggregate_id, version)
pair already exists in the table (a concurrent writer raced it) fails with
the 409 VersionConflict response and leaves the log unchanged. -/
theorem C1_append_version_protocol :
    (∀ (log : Log) (aggId aggTy evTy data newId : String) (now : Nat),
        aggId ≠ "" → aggTy ≠ "" → evTy ≠ "" → data ≠ "" →
        appendSeq log ⟨some aggId, some aggTy, some evTy, some data⟩
            newId now =
          ⟨201,
           .created ⟨newId, aggId, aggTy, evTy, data,
                     getLatestVersion log aggId + 1, now⟩,
           log ++ [⟨newId, aggId, aggTy, evTy, data,
                    getLatestVersion log aggId + 1, now⟩]⟩)
    ∧ (∀ reqs : List (AppendRequest × String × Nat),
        versionInvariant (runAppends reqs))
    ∧ (∀ (snapshot current : Log) (aggId aggTy evTy data newId : String)
          (now : Nat),
        aggId ≠ "" → aggTy ≠ "" → evTy ≠ "" → data ≠ "" →
        hasVersionPair current aggId
            (getLatestVersion snapshot aggId + 1) = true →
        handleAppendEvent snapshot current
            ⟨some aggId, some aggTy, some evTy, some data⟩ newId now false =
          ⟨409, .conflictGeneric, current⟩) :=
  ⟨fun log aggId aggTy evTy data newId now h1 h2 h3 h4 =>
     appendSeq_valid_eq log aggId aggTy evTy data newId now h1 h2 h3 h4,
   versionInvariant_runAppends,
   fun snapshot current aggId aggTy evTy data newId now h1 h2 h3 h4 hdup =>
     handleAppendEvent_conflict snapshot current aggId aggTy evTy data newId
       now h1 h2 h3 h4 hdup⟩

/-- Witness for C1 at concrete inputs: a first append to an empty log stores
version 1; a racing append against a one-row table whose pair collides gets
the 409 answer. -/
theorem C1_append_version_protocol_witness :
    (appendSeq [] ⟨some "media-a", some "Media", some "MediaUploaded",
        some "d1"⟩ "id1" 10 =
      ⟨201, .created ⟨"id1", "media-a", "Media", "MediaUploaded", "d1", 1, 10⟩,
       [⟨"id1", "media-a", "Media", "MediaUploaded", "d1", 1, 10⟩]⟩)
    ∧ versionInvariant (runAppends [])
    ∧ (handleAppendEvent []
        [⟨"id0", "media-a", "Media", "MediaUploaded", "d0", 1, 5⟩]
        ⟨some "media-a", some "Media", some "MediaUploaded", some "d1"⟩
        "id1" 10 false =
      ⟨409, .conflictGeneric,
       [⟨"id0", "media-a", "Media", "MediaUploaded", "d0", 1, 5⟩]⟩) :=
  ⟨C1_append_version_protocol.1 [] "media-a" "Media" "MediaUploaded" "d1"
     "id1" 10 (by decide) (by decide) (by decide) (by decide),
   C1_append_version_protocol.2.1 [],
   C1_append_version_protocol.2.2 []
     [⟨"id0", "media-a", "Media", "MediaUploaded", "d0", 1, 5⟩]
     "media-a" "Media" "MediaUploaded" "d1" "id1" 10
     (by decide) (by decide) (by decide) (by decide) (by decide)⟩

/-- C9 counterexample: an append whose event_type is outside the closed
event-type catalog is not rejected — the handler stores it and answers 201,
refuting the claim that unknown enumeration values fail with a 400-class
InvalidRequest and are never stored. -/
theorem C9_counterexample :
    ("BogusEventType" ∉ eventTypeCatalog)
    ∧ (appendSeq []
        ⟨some "media-a", some "Media", some "BogusEventType", some "d"⟩
        "id1" 7).status = 201
    ∧ (appendSeq []
        ⟨some "media-a", some "Media", some "BogusEventType", some "d"⟩
        "id1" 7).log =
      [⟨"id1", "media-a", "Media", "BogusEventType", "d", 1, 7⟩] := by
  refine ⟨by decide, ?_, ?_⟩ <;>
    simp [appendSeq, handleAppendEvent, appendEventInsert, hasVersionPair,
      getLatestVersion, versionsOf]

/-- C9 (amended): Append fails with the 400 InvalidRequest response and
persists nothing exactly when binding fails (a required field is missing or
empty); enumeration values are not validated, so a request carrying an
unknown event_type or aggregate_type passes binding and is stored like any
catalogued value. -/
theorem C9_validation_then_store :
    (∀ (snapshot current : Log) (req : AppendRequest) (newId : String)
        (now : Nat) (fault : Bool),
        bindOk req = false →
        handleAppendEvent snapshot current req newId now fault =
          ⟨400, .invalidRequest, current⟩)
    ∧ (∀ (log : Log) (aggId aggTy evTy data newId : String) (now : Nat),
        aggId ≠ "" → aggTy ≠ "" → evTy ≠ "" → data ≠ "" →
        appendSeq log ⟨some aggId, some aggTy, some evTy, some data⟩
            newId now =
          ⟨201,
           .created ⟨newId, aggId, aggTy, evTy, data,
                     getLatestVersion log aggId + 1, now⟩,
           log ++ [⟨newId, aggId, aggTy, evTy, data,
                    getLatestVersion log aggId + 1, now⟩]⟩) :=
  ⟨fun snapshot current req newId now fault h =>
     handleAppendEvent_badRequest snapshot current req newId now fault h,
   fun log aggId aggTy evTy data newId now h1 h2 h3 h4 =>
     appendSeq_valid_eq log aggId aggTy evTy data newId now h1 h2 h3 h4⟩

/-- Witness for C9 (amended): a request missing aggregate_id gets 400 and
stores nothing; a request with the uncatalogued event_type BogusEventType is
stored with 201. -/
theorem C9_validation_then_store_witness :
    (handleAppendEvent [] [] ⟨none, some "Media", some "MediaUploaded",
        some "d"⟩ "id1" 7 false = ⟨400, .invalidRequest, []⟩)
    ∧ (appendSeq []
        ⟨some "media-a", some "Media", some "BogusEventType", some "d"⟩
        "id1" 7 =
      ⟨201, .created ⟨"id1", "media-a", "Media", "BogusEventType", "d", 1, 7⟩,
       [⟨"id1", "media-a", "Media", "BogusEventType", "d", 1, 7⟩]⟩) :=
  ⟨C9_validation_then_store.1 [] [] ⟨none, some "Media",
     some "MediaUploaded", some "d"⟩ "id1" 7 false (by decide),
   C9_validation_then_store.2 [] "media-a" "Media" "BogusEventType" "d"
     "id1" 7 (by decide) (by decide) (by decide) (by decide)⟩

/-- C10: Every failure of the event-row insert is answered with HTTP 409 and
the one generic conflict body, whether it is a genuine uniqueness violation
of (aggregate_id, version) or any other persistence error; since the fault
branch fires for arbitrary states — including states with no colliding pair —
a 409 does not imply that a version conflict occurred. -/
theorem C10_insert_failure_always_409 :
    (∀ (snapshot current : Log) (aggId aggTy evTy data newId : String)
        (now : Nat),
        aggId ≠ "" → aggTy ≠ "" → evTy ≠ "" → data ≠ "" →
        handleAppendEvent snapshot current
            ⟨some aggId, some aggTy, some evTy, some data⟩ newId now true =
          ⟨409, .conflictGeneric, current⟩)
    ∧ (∀ (snapshot current : Log) (aggId aggTy evTy data newId : String)
        (now : Nat),
        aggId ≠ "" → aggTy ≠ "" → evTy ≠ "" → data ≠ "" →
        hasVersionPair current aggId
            (getLatestVersion snapshot aggId + 1) = true →
        handleAppendEvent snapshot current
            ⟨some aggId, some aggTy, some evTy, some data⟩ newId now false =
          ⟨409, .conflictGeneric, current⟩) :=
  ⟨fun snapshot current aggId aggTy evTy data newId now h1 h2 h3 h4 =>
     handleAppendEvent_fault snapshot current aggId aggTy evTy data newId
       now h1 h2 h3 h4,
   fun snapshot current aggId aggTy evTy data newId now h1 h2 h3 h4 hdup =>
     handleAppendEvent_conflict snapshot current aggId aggTy evTy data newId
       now h1 h2 h3 h4 hdup⟩

/-- Witness for C10: an insert fault against an empty table — where no
version pair can possibly conflict — still produces the generic 409; and a
real pair collision produces the byte-identical response. -/
theorem C10_insert_failure_always_409_witness :
    (hasVersionPair [] "media-a" (getLatestVersion [] "media-a" + 1) = false)
    ∧ (handleAppendEvent [] []
        ⟨some "media-a", some "Media", some "MediaUploaded", some "d"⟩
        "id1" 7 true = ⟨409, .conflictGeneric, []⟩)
    ∧ (handleAppendEvent []
        [⟨"id0", "media-a", "Media", "MediaUploaded", "d0", 1, 5⟩]
        ⟨some "media-a", some "Media", some "MediaUploaded", some "d"⟩
        "id1" 7 false =
      ⟨409, .conflictGeneric,
       [⟨"id0", "media-a", "Media", "MediaUploaded", "d0", 1, 5⟩]⟩) :=
  ⟨by decide,
   C10_insert_failure_always_409.1 [] [] "media-a" "Media" "MediaUploaded"
     "d" "id1" 7 (by decide) (by decide) (by decide) (by decide),
   C10_insert_failure_always_409.2 []
     [⟨"id0", "media-a", "Media", "MediaUploaded", "d0", 1, 5⟩]
     "media-a" "Media" "MediaUploaded" "d" "id1" 7
     (by decide) (by decide) (by decide) (by decide) (by decide)⟩

/-! ## Media read model and projector
(db/media/schema.sql + query.sql, internal/media/query/projector.go)

The `updated_at` column, which every statement sets to datetime('now'), is
wall-clock bookkeeping never read by the code and is omitted from the row
model.  The REAL column duration_seconds (Go float64) is only ever copied
and compared against zero, never computed with, so it is modelled by an
opaque integer code. -/

/-- One row of media_read_models (db/media/schema.sql). -/
structure MediaRow where
  id : String
  user_id : String
  filename : String
  content_type : String
  size : Int
  storage_path : String
  thumbnail_path : Option String
  width : Option Int
  height : Option Int
  duration_seconds : Option Int
  status : String
  last_event_version : Nat
  uploaded_at : Nat
deriving Repr, DecidableEq

/-- The media_read_models table, keyed by id, in insertion order. -/
abbrev ReadModel := List MediaRow

/-- Query UpsertMediaReadModel: INSERT ... ON CONFLICT(id) DO UPDATE SET
status = excluded.status, last_event_version = excluded.last_event_version.
On conflict only status and last_event_version change; the other columns of
the existing row are kept. -/
def upsertMediaReadModel (rm : ReadModel) (id user_id filename content_type :
    String) (size : Int) (storage_path status : String)
    (last_event_version : Nat) (uploaded_at : Nat) : ReadModel :=
  if rm.any (fun r => r.id = id) then
    rm.map (fun r =>
      if r.id = id then
        { r with status := status, last_event_version := last_event_version }
      else r)
  else
    rm ++ [⟨id, user_id, filename, content_type, size, storage_path,
            none, none, none, none, status, last_event_version, uploaded_at⟩]

/-- Query UpdateMediaProcessed: sets thumbnail, dimensions, duration,
status = processed and last_event_version on the row with the given id
(no WHERE clause beyond the id — in particular no version guard). -/
def updateMediaProcessed (rm : ReadModel) (thumbnail_path : Option String)
    (width height duration_seconds : Option Int) (last_event_version : Nat)
    (id : String) : ReadModel :=
  rm.map (fun r =>
    if r.id = id then
      { r with thumbnail_path := thumbnail_path, width := width,
               height := height, duration_seconds := duration_seconds,
               status := "processed",
               last_event_version := last_event_version }
    else r)

/-- Query UpdateMediaStatus: sets status and last_event_version on the row
with the given id (again no version guard). -/
def updateMediaStatus (rm : ReadModel) (status : String)
    (last_event_version : Nat) (id : String) : ReadModel :=
  rm.map (fun r =>
    if r.id = id then
      { r with status := status, last_event_version := last_event_version }
    else r)

/-- Outcome of json.Unmarshal on an event's data payload.  A well-formed
JSON object decodes into MediaUploadedData and into MediaProcessedData alike
(absent fields become zero values, already folded into the carried fields);
malformed JSON makes either unmarshal fail. -/
inductive PayloadJson where
  | malformed
  | object (user_id filename content_type : String) (size : Int)
      (storage_path : String) (thumbnail_path : String)
      (width height duration_seconds : Int)
deriving Repr, DecidableEq

/-- An event as the projector receives it from GET /events/since
(eventStoreResponse), with the data payload pre-classified. -/
structure PEvent where
  id : String
  aggregate_id : String
  aggregate_type : String
  event_type : String
  data : PayloadJson
  version : Nat
  created_at : Nat
deriving Repr, DecidableEq

/-- handleMediaUploaded: decode MediaUploadedData (fails on malformed JSON)
and upsert the row with status uploaded.  created_at always parses in this
model, so uploaded_at is the event timestamp. -/
def handleMediaUploaded (rm : ReadModel) (ev : PEvent) : Option ReadModel :=
  match ev.data with
  | .malformed => none
  | .object user_id filename content_type size storage_path _ _ _ _ =>
      some (upsertMediaReadModel rm ev.aggregate_id user_id filename
        content_type size storage_path "uploaded" ev.version ev.created_at)

/-- handleMediaProcessed: decode MediaProcessedData and update the row; the
sql.Null wrappers are valid exactly when the decoded field is non-zero. -/
def handleMediaProcessed (rm : ReadModel) (ev : PEvent) : Option ReadModel :=
  match ev.data with
  | .malformed => none
  | .object _ _ _ _ _ thumbnail_path width height duration_seconds =>
      some (updateMediaProcessed rm
        (if thumbnail_path = "" then none else some thumbnail_path)
        (if width = 0 then none else some width)
        (if height = 0 then none else some height)
        (if duration_seconds = 0 then none else some duration_seconds)
        ev.version ev.aggregate_id)

/-- Projector.processEvent: dispatch on aggregate_type and event_type.
`none` is the Go error return (only the two decoding handlers can fail);
non-media and unknown events are silently ignored. -/
def processEvent (rm : ReadModel) (ev : PEvent) : Option ReadModel :=
  if ev.aggregate_type ≠ "Media" then some rm
  else
    match ev.event_type with
    | "MediaUploaded" => handleMediaUploaded rm ev
    | "MediaProcessed" => handleMediaProcessed rm ev
    | "MediaProcessingFailed" =>
        some (updateMediaStatus rm "failed" ev.version ev.aggregate_id)
    | "MediaDeleted" =>
        some (updateMediaStatus rm "deleted" ev.version ev.aggregate_id)
    | "MediaUploadCompensated" =>
        some (updateMediaStatus rm "deleted" ev.version ev.aggregate_id)
    | _ => some rm

/-- The projector's state: the read model, the in-memory watermark
lastTimestamp (time.Time zero value = 0), and the projector_offsets row of
the media database (`none` = no row).  The read model and the offset table
are durable; lastTimestamp lives in the Projector struct only. -/
structure ProjState where
  readModel : ReadModel
  lastTimestamp : Nat
  persistedOffset : Option Nat
deriving Repr, DecidableEq

/-- One iteration of the batch loop in Projector.poll: a handler error is
logged and skipped (`continue`), leaving both accumulators unchanged; on
success the latest-timestamp accumulator takes the event's created_at if it
is strictly greater. -/
def pollStep (acc : ReadModel × Nat) (ev : PEvent) : ReadModel × Nat :=
  match processEvent acc.1 ev with
  | none => acc
  | some rm2 => (rm2, if ev.created_at > acc.2 then ev.created_at else acc.2)

/-- The batch loop of Projector.poll over the fetched events, starting with
the zero latest-timestamp. -/
def pollBatch (rm : ReadModel) (events : List PEvent) : ReadModel × Nat :=
  events.foldl pollStep (rm, 0)

/-- Projector.poll, given the batch GetSince returned: process every event,
then advance the in-memory watermark to latest + 1ns when any event was
applied successfully.  Nothing is written to projector_offsets. -/
def poll (s : ProjState) (events : List PEvent) : ProjState :=
  let res := pollBatch s.readModel events
  { s with readModel := res.1,
           lastTimestamp :=
             if res.2 ≠ 0 then res.2 + 1 else s.lastTimestamp }

/-- NewProjector after a process restart: the read model and the offset
table are in the database and survive; lastTimestamp is initialised to the
zero time.Time.  The media projector has no loadOffset — it never reads
projector_offsets. -/
def restartProjector (s : ProjState) : ProjState :=
  { readModel := s.readModel, lastTimestamp := 0,
    persistedOffset := s.persistedOffset }

/-- Specification-side view of one batch iteration: apply the event if its
handler succeeds, keep the read model otherwise. -/
def applyOrSkip (rm : ReadModel) (ev : PEvent) : ReadModel :=
  match processEvent rm ev with
  | none => rm
  | some rm2 => rm2

/-- created_at stamps of exactly the events of a batch whose handler
succeeds, threading the read-model state like the loop does. -/
def successStamps (rm : ReadModel) : List PEvent → List Nat
  | [] => []
  | ev :: evs =>
      match processEvent rm ev with
      | none => successStamps rm evs
      | some rm2 => ev.created_at :: successStamps rm2 evs

/-! ### Read-model lemmas -/

/-- Updating the row with a given id is idempotent whenever the per-row
update preserves the id and is itself idempotent. -/
theorem updById_map_idem (rm : ReadModel) (id : String)
    (f : MediaRow → MediaRow) (hid : ∀ r, (f r).id = r.id)
    (hf : ∀ r, f (f r) = f r) :
    (rm.map (fun r => if r.id = id then f r else r)).map
        (fun r => if r.id = id then f r else r) =
      rm.map (fun r => if r.id = id then f r else r) := by
  induction rm with
  | nil => rfl
  | cons r rs ih =>
      by_cases h : r.id = id
      · simp only [List.map_cons, if_pos h]
        rw [if_pos (by rw [hid r]; exact h), hf r, ih]
      · simp only [List.map_cons, if_neg h]
        rw [ih]

/-- If no row carries the id, the keyed update is the identity. -/
theorem map_noupd (rm : ReadModel) (id : String) (f : MediaRow → MediaRow)
    (h : rm.any (fun r => r.id = id) = false) :
    rm.map (fun r => if r.id = id then f r else r) = rm := by
  induction rm with
  | nil => rfl
  | cons r rs ih =>
      rw [List.any_cons, Bool.or_eq_false_iff] at h
      have h1 : ¬ r.id = id := by simpa using h.1
      rw [List.map_cons, if_neg h1, ih h.2]

/-- Unfolding equation for the conflict branch of the upsert. -/
theorem upsertMediaReadModel_pos (rm : ReadModel) (id u fn ct : String)
    (size : Int) (sp st : String) (lev ua : Nat)
    (h : rm.any (fun r => r.id = id) = true) :
    upsertMediaReadModel rm id u fn ct size sp st lev ua =
      rm.map (fun r =>
        if r.id = id then
          { r with status := st, last_event_version := lev }
        else r) := by
  unfold upsertMediaReadModel
  rw [if_pos h]

/-- Unfolding equation for the insert branch of the upsert. -/
theorem upsertMediaReadModel_neg (rm : ReadModel) (id u fn ct : String)
    (size : Int) (sp st : String) (lev ua : Nat)
    (h : rm.any (fun r => r.id = id) = false) :
    upsertMediaReadModel rm id u fn ct size sp st lev ua =
      rm ++ [⟨id, u, fn, ct, size, sp, none, none, none, none,
             st, lev, ua⟩] := by
  unfold upsertMediaReadModel
  rw [if_neg (by rw [h]; exact Bool.false_ne_true)]

theorem upsertMediaReadModel_idem (rm : ReadModel) (id u fn ct : String)
    (size : Int) (sp st : String) (lev ua : Nat) :
    upsertMediaReadModel
        (upsertMediaReadModel rm id u fn ct size sp st lev ua)
        id u fn ct size sp st lev ua =
      upsertMediaReadModel rm id u fn ct size sp st lev ua := by
  by_cases h : rm.any (fun r => r.id = id) = true
  · rw [upsertMediaReadModel_pos rm id u fn ct size sp st lev ua h]
    have hany2 : (rm.map (fun r =>
        if r.id = id then
          { r with status := st, last_event_version := lev }
        else r)).any (fun r => r.id = id) = true := by
      rw [List.any_map]
      have hcomp : ((fun r : MediaRow => decide (r.id = id)) ∘ (fun r =>
          if r.id = id then
            { r with status := st, last_event_version := lev }
          else r)) = fun r : MediaRow => decide (r.id = id) := by
        funext r
        by_cases hr : r.id = id <;> simp [hr]
      rw [hcomp]
      exact h
    rw [upsertMediaReadModel_pos _ id u fn ct size sp st lev ua hany2]
    exact updById_map_idem rm id _ (fun r => rfl) (fun r => rfl)
  · rw [Bool.not_eq_true] at h
    rw [upsertMediaReadModel_neg rm id u fn ct size sp st lev ua h]
    have hany2 : ((rm ++ [(⟨id, u, fn, ct, size, sp, none, none, none, none,
        st, lev, ua⟩ : MediaRow)]).any (fun r => r.id = id)) = true := by
      simp
    rw [upsertMediaReadModel_pos _ id u fn ct size sp st lev ua hany2,
      List.map_append, map_noupd rm id _ h, List.map_singleton, if_pos rfl]

theorem updateMediaProcessed_idem (rm : ReadModel)
    (tp : Option String) (w ht ds : Option Int) (lev : Nat) (id : String) :
    updateMediaProcessed (updateMediaProcessed rm tp w ht ds lev id)
        tp w ht ds lev id =
      updateMediaProcessed rm tp w ht ds lev id :=
  updById_map_idem rm id _ (fun _ => rfl) (fun _ => rfl)

theorem updateMediaStatus_idem (rm : ReadModel) (st : String) (lev : Nat)
    (id : String) :
    updateMediaStatus (updateMediaStatus rm st lev id) st lev id =
      updateMediaStatus rm st lev id :=
  updById_map_idem rm id _ (fun _ => rfl) (fun _ => rfl)

/-- Applying the same event a second time reproduces the state after the
first application: every handler writes absolute values, so the second
application rewrites what is already there. -/
theorem processEvent_idem (rm rm2 : ReadModel) (ev : PEvent)
    (h : processEvent rm ev = some rm2) :
    processEvent rm2 ev = some rm2 := by
  unfold processEvent at h ⊢
  by_cases hagg : ev.aggregate_type ≠ "Media"
  · rw [if_pos hagg] at h ⊢
  · rw [if_neg hagg] at h ⊢
    split at h
    · -- MediaUploaded
      unfold handleMediaUploaded at h ⊢
      cases hdata : ev.data with
      | malformed =>
          rw [hdata] at h
          exact absurd h (by simp)
      | object u fn ct size sp tp w ht ds =>
          rw [hdata] at h
          simp only [Option.some.injEq] at h
          subst h
          exact congrArg some (upsertMediaReadModel_idem rm ev.aggregate_id
            u fn ct size sp "uploaded" ev.version ev.created_at)
    · -- MediaProcessed
      unfold handleMediaProcessed at h ⊢
      cases hdata : ev.data with
      | malformed =>
          rw [hdata] at h
          exact absurd h (by simp)
      | object u fn ct size sp tp w ht ds =>
          rw [hdata] at h
          simp only [Option.some.injEq] at h
          subst h
          exact congrArg some (updateMediaProcessed_idem rm
            (if tp = "" then none else some tp)
            (if w = 0 then none else some w)
            (if ht = 0 then none else some ht)
            (if ds = 0 then none else some ds)
            ev.version ev.aggregate_id)
    · simp only [Option.some.injEq] at h
      subst h
      exact congrArg some (updateMediaStatus_idem rm "failed" ev.version
        ev.aggregate_id)
    · simp only [Option.some.injEq] at h
      subst h
      exact congrArg some (updateMediaStatus_idem rm "deleted" ev.version
        ev.aggregate_id)
    · simp only [Option.some.injEq] at h
      subst h
      exact congrArg some (updateMediaStatus_idem rm "deleted" ev.version
        ev.aggregate_id)
    · simp only [Option.some.injEq] at h
      subst h
      rfl

/-- C2 counterexample: there is no last_event_version guard on either
mutation shape.  Against a row whose stored last_event_version is 5, an
incoming event of version 1 ≤ 5 changes the row on both cited paths: the
UpsertMediaReadModel conflict branch (a MediaUploaded replay rewrites
status to uploaded and last_event_version down to 1) and the plain
UpdateMediaStatus (a MediaDeleted of version 1 rewrites status and
last_event_version) — refuting the claim that a mutation whose version is
less than or equal to the stored last_event_version leaves the row
unchanged. -/
theorem C2_counterexample :
    processEvent
        [⟨"m1", "u", "f", "ct", 1, "sp", none, none, none, none,
          "processed", 5, 10⟩]
        ⟨"e8", "m1", "Media", "MediaUploaded",
         .object "u" "f" "ct" 1 "sp" "" 0 0 0, 1, 60⟩ =
      some [⟨"m1", "u", "f", "ct", 1, "sp", none, none, none, none,
             "uploaded", 1, 10⟩]
    ∧ processEvent
        [⟨"m1", "u", "f", "ct", 1, "sp", none, none, none, none,
          "processed", 5, 10⟩]
        ⟨"e9", "m1", "Media", "MediaDeleted", .malformed, 1, 50⟩ =
      some [⟨"m1", "u", "f", "ct", 1, "sp", none, none, none, none,
             "deleted", 1, 10⟩]
    ∧ (1 : Nat) ≤ 5
    ∧ ([⟨"m1", "u", "f", "ct", 1, "sp", none, none, none, none,
         "uploaded", 1, 10⟩] : ReadModel) ≠
      [⟨"m1", "u", "f", "ct", 1, "sp", none, none, none, none,
        "processed", 5, 10⟩]
    ∧ ([⟨"m1", "u", "f", "ct", 1, "sp", none, none, none, none,
         "deleted", 1, 10⟩] : ReadModel) ≠
      [⟨"m1", "u", "f", "ct", 1, "sp", none, none, none, none,
        "processed", 5, 10⟩] := by decide

/-- C2 (amended): read-model mutations are upserts keyed by aggregate_id
applied unconditionally — the SQL has no last_event_version guard — yet
applying the same event twice still produces the same read-model state as
applying it once, because every handler writes absolute values. -/
theorem C2_idempotent_without_guard :
    ∀ (rm rm2 : ReadModel) (ev : PEvent),
      processEvent rm ev = some rm2 → processEvent rm2 ev = some rm2 :=
  fun rm rm2 ev h => processEvent_idem rm rm2 ev h

/-- Witness for C2 (amended): re-applying a concrete MediaUploaded event to
the state it produced reproduces that state. -/
theorem C2_idempotent_without_guard_witness :
    processEvent
        [⟨"m1", "u", "f", "ct", 7, "sp", none, none, none, none,
          "uploaded", 1, 40⟩]
        ⟨"e1", "m1", "Media", "MediaUploaded",
         .object "u" "f" "ct" 7 "sp" "" 0 0 0, 1, 40⟩ =
      some [⟨"m1", "u", "f", "ct", 7, "sp", none, none, none, none,
             "uploaded", 1, 40⟩] :=
  C2_idempotent_without_guard []
    [⟨"m1", "u", "f", "ct", 7, "sp", none, none, none, none,
      "uploaded", 1, 40⟩]
    ⟨"e1", "m1", "Media", "MediaUploaded",
     .object "u" "f" "ct" 7 "sp" "" 0 0 0, 1, 40⟩
    (by decide)

/-! ### Projector-loop lemmas (C3, C7) -/

theorem ite_gt_eq_max (t c : Nat) : (if c > t then c else t) = max t c := by
  rcases Nat.lt_or_ge t c with hlt | hge
  · rw [if_pos hlt, Nat.max_eq_right (Nat.le_of_lt hlt)]
  · rw [if_neg (Nat.not_lt.mpr hge), Nat.max_eq_left hge]

/-- The batch fold of Projector.poll computes exactly: the read model with
every erroring event skipped, and the maximum created_at over the events
whose handler succeeded. -/
theorem pollBatch_foldl_spec (events : List PEvent) (rm : ReadModel)
    (t : Nat) :
    events.foldl pollStep (rm, t) =
      (events.foldl applyOrSkip rm, (successStamps rm events).foldl max t) := by
  induction events generalizing rm t with
  | nil => rfl
  | cons ev evs ih =>
      simp only [List.foldl_cons]
      cases hpe : processEvent rm ev with
      | none =>
          have h1 : pollStep (rm, t) ev = (rm, t) := by
            simp [pollStep, hpe]
          have h2 : applyOrSkip rm ev = rm := by
            simp [applyOrSkip, hpe]
          rw [h1, h2, ih rm t]
          simp [successStamps, hpe]
      | some rm2 =>
          have h1 : pollStep (rm, t) ev = (rm2, max t ev.created_at) := by
            simp [pollStep, hpe, ite_gt_eq_max]
          have h2 : applyOrSkip rm ev = rm2 := by
            simp [applyOrSkip, hpe]
          rw [h1, h2, ih rm2 (max t ev.created_at)]
          simp [successStamps, hpe]

/-- C3 counterexample: a batch whose first event fails (malformed payload,
created_at = 10) and whose second succeeds (created_at = 20) does not halt:
the new watermark is 21, strictly past the failed event, so the next
GetSince(21) will never re-fetch it — refuting the claim that the batch
halts at the failing event with the watermark left just before it. -/
theorem C3_counterexample :
    processEvent []
        ⟨"e1", "media-a", "Media", "MediaUploaded", .malformed, 1, 10⟩ = none
    ∧ (poll ⟨[], 0, none⟩
        [⟨"e1", "media-a", "Media", "MediaUploaded", .malformed, 1, 10⟩,
         ⟨"e2", "media-b", "Media", "MediaUploaded",
          .object "u" "f" "ct" 1 "sp" "" 0 0 0, 1, 20⟩]).lastTimestamp = 21
    ∧ (10 : Nat) < 21 := by decide

/-- C3 (amended): a failing handler is logged and skipped, the rest of the
batch is still processed, and the watermark becomes the maximum created_at
over the successfully applied events plus one nanosecond — which can lie
past a failed event; when no event of the batch is applied the watermark is
unchanged. -/
theorem C3_skip_discipline :
    (∀ (rm : ReadModel) (events : List PEvent),
        pollBatch rm events =
          (events.foldl applyOrSkip rm,
           (successStamps rm events).foldl max 0))
    ∧ (∀ (s : ProjState) (events : List PEvent),
        poll s events =
          ⟨events.foldl applyOrSkip s.readModel,
           if (successStamps s.readModel events).foldl max 0 ≠ 0 then
             (successStamps s.readModel events).foldl max 0 + 1
           else s.lastTimestamp,
           s.persistedOffset⟩) := by
  constructor
  · intro rm events
    exact pollBatch_foldl_spec events rm 0
  · intro s events
    show ({ s with
        readModel := (pollBatch s.readModel events).1,
        lastTimestamp :=
          if (pollBatch s.readModel events).2 ≠ 0 then
            (pollBatch s.readModel events).2 + 1
          else s.lastTimestamp } : ProjState) = _
    rw [pollBatch, pollBatch_foldl_spec events s.readModel 0]

/-- C7: the media projector never writes projector_offsets — the watermark
(maximum created_at of applied events plus one nanosecond) lives only in the
Projector struct, and a restarted projector begins again at the zero
watermark instead of resuming from a persisted offset: after applying an
event stamped 100 the in-memory watermark is 101, the offset row is still
absent, and the restarted projector's watermark is 0. -/
theorem C7_offset_not_persisted :
    (∀ (s : ProjState) (events : List PEvent),
        (poll s events).persistedOffset = s.persistedOffset)
    ∧ ((poll ⟨[], 0, none⟩
        [⟨"e2", "media-b", "Media", "MediaUploaded",
          .object "u" "f" "ct" 1 "sp" "" 0 0 0, 1, 100⟩]).lastTimestamp
        = 101)
    ∧ ((poll ⟨[], 0, none⟩
        [⟨"e2", "media-b", "Media", "MediaUploaded",
          .object "u" "f" "ct" 1 "sp" "" 0 0 0, 1, 100⟩]).persistedOffset
        = none)
    ∧ ((restartProjector (poll ⟨[], 0, none⟩
        [⟨"e2", "media-b", "Media", "MediaUploaded",
          .object "u" "f" "ct" 1 "sp" "" 0 0 0, 1, 100⟩])).lastTimestamp
        = 0) := by
  refine ⟨fun s events => rfl, ?_, ?_, ?_⟩ <;> decide

/-! ## Saga engine (internal/saga/orchestrator.go, db/saga)

The orchestrator's external RPCs are modelled by an environment of actions:
each action maps the attempt index to the outcome of that invocation
(`Except String Unit` — the Go error).  uuid.New() values are passed in as
parameters.  Columns holding datetime('now') take an explicit `now`; the
sagas and saga_steps tables are lists in insertion order, which coincides
with the ORDER BY started_at / updated_at of the queries because both
timestamps come from a monotone wall clock. -/

/-- Outcome of parsing the upload_data JSON stored inside a saga payload
(MediaUploadedData; only user_id and filename are read by the engine). -/
inductive UploadData where
  | parsed (user_id filename : String)
  | bad
deriving Repr, DecidableEq

/-- Outcome of json.Unmarshal on a saga's payload column: the map written
by startMediaUploadSaga, or malformed JSON. -/
inductive SagaPayload where
  | map (media_aggregate_id : String) (upload_data : UploadData)
  | malformed
deriving Repr, DecidableEq

/-- One row of the sagas table (db/saga/schema.sql). -/
structure SagaRow where
  id : String
  saga_type : String
  current_step : String
  status : String
  payload : SagaPayload
  started_at : Nat
  updated_at : Nat
  completed_at : Option Nat
deriving Repr, DecidableEq

/-- One row of the saga_steps table.  The started_at / completed_at
timestamps are wall-clock bookkeeping not read by the engine and are
omitted. -/
structure StepRow where
  id : String
  saga_id : String
  step_name : String
  status : String
  result : String
  retry_count : Nat
  last_error : String
deriving Repr, DecidableEq

/-- The saga database owned by the orchestrator. -/
structure SagaState where
  sagas : List SagaRow
  steps : List StepRow
deriving Repr, DecidableEq

/-- UPDATE sagas ... WHERE id = ?. -/
def updSagas (l : List SagaRow) (id : String) (g : SagaRow → SagaRow) :
    List SagaRow :=
  l.map (fun s => if s.id = id then g s else s)

/-- UPDATE saga_steps ... WHERE id = ?. -/
def updSteps (l : List StepRow) (id : String) (g : StepRow → StepRow) :
    List StepRow :=
  l.map (fun r => if r.id = id then g r else r)

/-- Query CreateSaga: INSERT with status 'started'. -/
def createSaga (st : SagaState) (id sagaType currentStep : String)
    (payload : SagaPayload) (now : Nat) : SagaState :=
  { st with sagas := st.sagas ++
      [⟨id, sagaType, currentStep, "started", payload, now, now, none⟩] }

/-- Query UpdateSagaStep: SET current_step, status, payload, updated_at. -/
def updateSagaStep (st : SagaState) (currentStep status : String)
    (payload : SagaPayload) (id : String) (now : Nat) : SagaState :=
  { st with sagas := updSagas st.sagas id (fun s =>
      { s with current_step := currentStep, status := status,
               payload := payload, updated_at := now }) }

/-- Query CompleteSaga: SET status = 'completed', updated_at, completed_at. -/
def completeSaga (st : SagaState) (id : String) (now : Nat) : SagaState :=
  { st with sagas := updSagas st.sagas id (fun s =>
      { s with status := "completed", updated_at := now,
               completed_at := some now }) }

/-- Query FailSaga: SET status = 'failed', updated_at, completed_at. -/
def failSaga (st : SagaState) (id : String) (now : Nat) : SagaState :=
  { st with sagas := updSagas st.sagas id (fun s =>
      { s with status := "failed", updated_at := now,
               completed_at := some now }) }

/-- Statuses matched by ListActiveSagas. -/
def isActiveStatus (s : String) : Bool :=
  s = "started" || s = "in_progress" || s = "compensating"

/-- Query ListActiveSagas (ORDER BY started_at ASC = insertion order). -/
def listActiveSagas (st : SagaState) : List SagaRow :=
  st.sagas.filter (fun s => isActiveStatus s.status)

/-- Query CreateSagaStep: INSERT with result '\x7b\x7d', retry_count 0,
last_error ''. -/
def createSagaStep (st : SagaState) (id sagaID stepName status : String) :
    SagaState :=
  { st with steps := st.steps ++
      [⟨id, sagaID, stepName, status, "\x7b\x7d", 0, ""⟩] }

/-- Query UpdateSagaStepStatus: SET status, result. -/
def updateSagaStepStatus (st : SagaState) (status result id : String) :
    SagaState :=
  { st with steps := updSteps st.steps id (fun r =>
      { r with status := status, result := result }) }

/-- Query UpdateSagaStepRetry: SET retry_count, last_error, status. -/
def updateSagaStepRetry (st : SagaState) (retryCount : Nat)
    (lastError status id : String) : SagaState :=
  { st with steps := updSteps st.steps id (fun r =>
      { r with retry_count := retryCount, last_error := lastError,
               status := status }) }

/-- findActiveSagaByAggregateID: linear scan over the active sagas, skipping
rows whose payload fails to unmarshal, returning the first whose
media_aggregate_id equals the target. -/
def findActiveSagaByAggregateID (st : SagaState) (aggregateID : String) :
    Option SagaRow :=
  (listActiveSagas st).find? (fun s =>
    match s.payload with
    | .map mid _ => mid = aggregateID
    | .malformed => false)

/-- maxRetries constant of the orchestrator. -/
def maxRetries : Nat := 3

/-- Stand-in for the json.Marshal of the error map written into the step
result on retry exhaustion. -/
def errorResult (e : String) : String := "error=" ++ e

/-- Trace of one executeStep call: the saga_steps table afterwards, how many
times the action was invoked, and the seconds slept before each retry. -/
structure StepTrace where
  steps : List StepRow
  invocations : Nat
  sleeps : List Nat
deriving Repr, DecidableEq

/-- The retry for-loop of executeStep.  `attempt` is the Go loop counter,
`remaining` the attempts still allowed (maxRetries + 1 - attempt), `lastErr`
the error of the previous attempt.  Attempt k > 0 sleeps 2^(k-1) seconds
before running.  On failure the step row records retry_count = attempt + 1,
the error and status 'executing' before the next attempt; on success the row
becomes 'completed' (writing retry_count and clearing last_error when the
success needed retries); on exhaustion it becomes 'failed' with the error
as its result. -/
def stepAttemptLoop (steps : List StepRow) (stepID : String)
    (action : Nat → Except String Unit) (attempt remaining : Nat)
    (lastErr : String) : StepTrace :=
  match remaining with
  | 0 =>
      ⟨updSteps steps stepID (fun r =>
          { r with status := "failed", result := errorResult lastErr }),
       0, []⟩
  | r + 1 =>
      let sleeps0 : List Nat :=
        if attempt > 0 then [2 ^ (attempt - 1)] else []
      match action attempt with
      | .ok _ =>
          let steps1 := updSteps steps stepID (fun s =>
            { s with status := "completed", result := "\x7b\x7d" })
          let steps2 :=
            if attempt > 0 then
              updSteps steps1 stepID (fun s =>
                { s with retry_count := attempt, last_error := "",
                         status := "completed" })
            else steps1
          ⟨steps2, 1, sleeps0⟩
      | .error e =>
          let steps1 := updSteps steps stepID (fun s =>
            { s with retry_count := attempt + 1, last_error := e,
                     status := "executing" })
          let t := stepAttemptLoop steps1 stepID action (attempt + 1) r e
          ⟨t.steps, t.invocations + 1, sleeps0 ++ t.sleeps⟩

/-- executeStep on the steps table, with trace: insert the step row with
status 'executing', then run the retry loop. -/
def executeStepT (steps : List StepRow) (sagaID stepName stepID : String)
    (action : Nat → Except String Unit) : StepTrace :=
  stepAttemptLoop
    (steps ++ [⟨stepID, sagaID, stepName, "executing", "\x7b\x7d", 0, ""⟩])
    stepID action 0 (maxRetries + 1) ""

/-- executeStep as a state transformer: it only ever touches saga_steps —
the sagas table (and hence any compensation) is untouched. -/
def executeStep (st : SagaState) (sagaID stepName stepID : String)
    (action : Nat → Except String Unit) : SagaState :=
  { st with steps := (executeStepT st.steps sagaID stepName stepID action).steps }

/-- Outcomes of the orchestrator's outbound RPC endpoints, per attempt. -/
structure ActionEnv where
  processMedia : Nat → Except String Unit
  addToAlbum : Nat → Except String Unit
  sendNotification : Nat → Except String Unit
  compensateUpload : Nat → Except String Unit

/-- The add_to_album forward-action closure: it first unmarshals the saga
payload and the embedded upload data and fails if either is malformed,
otherwise posts to the album service. -/
def addToAlbumAction (p : SagaPayload) (env : ActionEnv) :
    Nat → Except String Unit :=
  match p with
  | .malformed => fun _ => .error "payload parse failed"
  | .map _ .bad => fun _ => .error "upload data parse failed"
  | .map _ (.parsed _ _) => env.addToAlbum

/-- The send_notification forward-action closure, same parsing prelude. -/
def sendNotificationAction (p : SagaPayload) (env : ActionEnv) :
    Nat → Except String Unit :=
  match p with
  | .malformed => fun _ => .error "payload parse failed"
  | .map _ .bad => fun _ => .error "upload data parse failed"
  | .map _ (.parsed _ _) => env.sendNotification

/-- startMediaUploadSaga: create the saga (status 'started', current_step
process_media, payload seeded with the media aggregate id and upload data),
then dispatch the process_media step. -/
def startMediaUploadSaga (st : SagaState) (aggregateID : String)
    (data : UploadData) (sagaID stepID : String) (env : ActionEnv)
    (now : Nat) : SagaState :=
  let st1 := createSaga st sagaID "media_upload" "process_media"
    (.map aggregateID data) now
  executeStep st1 sagaID "process_media" stepID env.processMedia

/-- advanceSagaOnProcessed: locate the saga by the media aggregate id stored
in its payload, advance it to add_to_album / in_progress, dispatch the
add_to_album step. -/
def advanceSagaOnProcessed (st : SagaState) (aggregateID stepID : String)
    (env : ActionEnv) (now : Nat) : SagaState :=
  match findActiveSagaByAggregateID st aggregateID with
  | none => st
  | some saga =>
      let st1 := updateSagaStep st "add_to_album" "in_progress" saga.payload
        saga.id now
      executeStep st1 saga.id "add_to_album" stepID
        (addToAlbumAction saga.payload env)

/-- The body of the advanceSagaOnAlbumAdded loop for one snapshot row: skip
sagas not at add_to_album; otherwise advance to send_notification, dispatch
the step, and complete the saga unconditionally. -/
def advanceOneOnAlbumAdded (env : ActionEnv) (stepIdFor : String → String)
    (now : Nat) (st : SagaState) (saga : SagaRow) : SagaState :=
  if saga.current_step = "add_to_album" then
    let st1 := updateSagaStep st "send_notification" "in_progress"
      saga.payload saga.id now
    let st2 := executeStep st1 saga.id "send_notification"
      (stepIdFor saga.id) (sendNotificationAction saga.payload env)
    completeSaga st2 saga.id now
  else st

/-- advanceSagaOnAlbumAdded: the event carries the album's aggregate id, so
the code does not match any payload — it iterates over the snapshot of all
active sagas and advances every one whose current_step is add_to_album. -/
def advanceSagaOnAlbumAdded (st : SagaState) (env : ActionEnv)
    (stepIdFor : String → String) (now : Nat) : SagaState :=
  (listActiveSagas st).foldl (advanceOneOnAlbumAdded env stepIdFor now) st

/-- compensateOnProcessingFailed: locate the saga by payload, move it to
compensate_upload / compensating, run the single fixed compensation step
(media-command compensate endpoint), then mark the saga failed. -/
def compensateOnProcessingFailed (st : SagaState) (aggregateID stepID :
    String) (env : ActionEnv) (now : Nat) : SagaState :=
  match findActiveSagaByAggregateID st aggregateID with
  | none => st
  | some saga =>
      let st1 := updateSagaStep st "compensate_upload" "compensating"
        saga.payload saga.id now
      let st2 := executeStep st1 saga.id "compensate_upload" stepID
        env.compensateUpload
      failSaga st2 saga.id now

/-- The uuid.New() values consumed by one HandleEvent call. -/
structure IdSupply where
  sagaID : String
  stepID : String
  stepIdFor : String → String

/-- Orchestrator.HandleEvent: dispatch on the event type.  Only the four
listed types are handled; NotificationSent (and everything else) is
ignored. -/
def HandleEvent (st : SagaState) (eventType aggregateID : String)
    (data : UploadData) (ids : IdSupply) (env : ActionEnv) (now : Nat) :
    SagaState :=
  match eventType with
  | "MediaUploaded" =>
      startMediaUploadSaga st aggregateID data ids.sagaID ids.stepID env now
  | "MediaProcessed" =>
      advanceSagaOnProcessed st aggregateID ids.stepID env now
  | "MediaProcessingFailed" =>
      compensateOnProcessingFailed st aggregateID ids.stepID env now
  | "MediaAddedToAlbum" =>
      advanceSagaOnAlbumAdded st env ids.stepIdFor now
  | _ => st

/-- Statuses matched by ListStuckSagas. -/
def isStuckStatus (s : String) : Bool :=
  s = "in_progress" || s = "compensating"

/-- Query ListStuckSagas: status IN (in_progress, compensating) AND
updated_at < threshold (ORDER BY updated_at ASC = insertion order here). -/
def listStuckSagas (st : SagaState) (threshold : Nat) : List SagaRow :=
  st.sagas.filter (fun s => isStuckStatus s.status && s.updated_at < threshold)

/-- The body of the checkStuckSagas loop for one detected row: a
compensating saga with an unparseable payload is skipped (continue — it is
never failed); otherwise compensation is retried once when the stored
aggregate id is non-empty, and the saga is marked failed; an in_progress
saga is marked failed directly. -/
def handleStuckSaga (env : ActionEnv) (stepIdFor : String → String)
    (now : Nat) (st : SagaState) (saga : SagaRow) : SagaState :=
  match saga.status with
  | "compensating" =>
      match saga.payload with
      | .malformed => st
      | .map aggregateID _ =>
          let st1 :=
            if aggregateID ≠ "" then
              executeStep st saga.id "compensate_upload_retry"
                (stepIdFor saga.id) env.compensateUpload
            else st
          failSaga st1 saga.id now
  | "in_progress" => failSaga st saga.id now
  | _ => st

/-- Orchestrator.checkStuckSagas over the snapshot returned by
ListStuckSagas. -/
def checkStuckSagas (st : SagaState) (threshold : Nat) (env : ActionEnv)
    (stepIdFor : String → String) (now : Nat) : SagaState :=
  (listStuckSagas st threshold).foldl (handleStuckSaga env stepIdFor now) st

/-! ### Step-dispatch lemmas (C6) -/

theorem updSteps_noupd (l : List StepRow) (id : String) (g : StepRow → StepRow)
    (h : l.all (fun r => !(r.id = id)) = true) :
    updSteps l id g = l := by
  induction l with
  | nil => rfl
  | cons r rs ih =>
      rw [List.all_cons, Bool.and_eq_true] at h
      have h1 : ¬ r.id = id := by simpa using h.1
      show (if r.id = id then g r else r) :: updSteps rs id g = r :: rs
      rw [if_neg h1, ih h.2]

theorem updSteps_append_fresh (l : List StepRow) (r0 : StepRow) (id : String)
    (g : StepRow → StepRow) (hl : l.all (fun r => !(r.id = id)) = true)
    (hr : r0.id = id) :
    updSteps (l ++ [r0]) id g = l ++ [g r0] := by
  have h1 : updSteps l id g = l := updSteps_noupd l id g hl
  have h2 : updSteps [r0] id g = [g r0] := by
    simp [updSteps, hr]
  calc updSteps (l ++ [r0]) id g
      = updSteps l id g ++ updSteps [r0] id g := by simp [updSteps]
    _ = l ++ [g r0] := by rw [h1, h2]

/-- When every attempt fails, the step row ends as 'failed' carrying the
last error and retry_count 4, after exactly 4 invocations and backoff
sleeps of 1, 2 and 4 seconds. -/
theorem executeStepT_exhaustion (steps : List StepRow)
    (sagaID stepName stepID : String) (action : Nat → Except String Unit)
    (e0 e1 e2 e3 : String)
    (hfresh : steps.all (fun r => !(r.id = stepID)) = true)
    (h0 : action 0 = .error e0) (h1 : action 1 = .error e1)
    (h2 : action 2 = .error e2) (h3 : action 3 = .error e3) :
    executeStepT steps sagaID stepName stepID action =
      ⟨steps ++ [⟨stepID, sagaID, stepName, "failed", errorResult e3, 4, e3⟩],
       4, [1, 2, 4]⟩ := by
  simp only [executeStepT, maxRetries, stepAttemptLoop, h0, h1, h2, h3]
  rw [updSteps_append_fresh steps _ stepID _ hfresh (by rfl)]
  rw [updSteps_append_fresh steps _ stepID _ hfresh (by rfl)]
  rw [updSteps_append_fresh steps _ stepID _ hfresh (by rfl)]
  rw [updSteps_append_fresh steps _ stepID _ hfresh (by rfl)]
  rw [updSteps_append_fresh steps _ stepID _ hfresh (by rfl)]
  simp

/-- The retry loop invokes the action at most maxRetries + 1 times, and the
sleep before the k-th retry is 2^(k-1) seconds. -/
theorem executeStepT_trace (steps : List StepRow)
    (sagaID stepName stepID : String) (action : Nat → Except String Unit) :
    (executeStepT steps sagaID stepName stepID action).invocations ≤
        maxRetries + 1
    ∧ (executeStepT steps sagaID stepName stepID action).sleeps =
        (List.range
          ((executeStepT steps sagaID stepName stepID action).invocations
            - 1)).map (fun k => 2 ^ k) := by
  rcases h0 : action 0 with _ | e0 <;>
    rcases h1 : action 1 with _ | e1 <;>
      rcases h2 : action 2 with _ | e2 <;>
        rcases h3 : action 3 with _ | e3 <;>
          refine ⟨?_, ?_⟩ <;>
            simp [executeStepT, maxRetries, stepAttemptLoop, h0, h1, h2, h3,
              List.range_succ]

theorem executeStep_sagas_unchanged (st : SagaState)
    (sagaID stepName stepID : String) (action : Nat → Except String Unit) :
    (executeStep st sagaID stepName stepID action).sagas = st.sagas := rfl

/-- C6 counterexample: an always-failing action is invoked 4 times — not at
most maxRetries = 3 times in total as claimed (the Go loop runs attempts
0..maxRetries inclusive: one initial try plus maxRetries retries). -/
theorem C6_counterexample :
    (executeStepT [] "s1" "process_media" "t1"
        (fun _ => .error "down")).invocations = 4
    ∧ ¬ ((executeStepT [] "s1" "process_media" "t1"
        (fun _ => .error "down")).invocations ≤ maxRetries) := by decide

/-- C6 (amended): step dispatch invokes the forward action at most
maxRetries + 1 = 4 times (one initial attempt plus up to maxRetries
retries), sleeping 2^(k-1) seconds before retry attempt k, persisting
retry_count and last_error to the step row between attempts; on exhaustion
the step row is marked failed with the last error — but executeStep itself
never touches the sagas table, so compensation does not begin there: it
starts only when a MediaProcessingFailed event is observed. -/
theorem C6_retry_backoff_semantics :
    (∀ (steps : List StepRow) (sagaID stepName stepID : String)
        (action : Nat → Except String Unit),
        (executeStepT steps sagaID stepName stepID action).invocations ≤
            maxRetries + 1
        ∧ (executeStepT steps sagaID stepName stepID action).sleeps =
            (List.range
              ((executeStepT steps sagaID stepName stepID action).invocations
                - 1)).map (fun k => 2 ^ k))
    ∧ (∀ (st : SagaState) (sagaID stepName stepID : String)
        (action : Nat → Except String Unit),
        (executeStep st sagaID stepName stepID action).sagas = st.sagas)
    ∧ (∀ (steps : List StepRow) (sagaID stepName stepID : String)
        (action : Nat → Except String Unit) (e0 e1 e2 e3 : String),
        steps.all (fun r => !(r.id = stepID)) = true →
        action 0 = .error e0 → action 1 = .error e1 →
        action 2 = .error e2 → action 3 = .error e3 →
        executeStepT steps sagaID stepName stepID action =
          ⟨steps ++ [⟨stepID, sagaID, stepName, "failed", errorResult e3,
                      4, e3⟩],
           4, [1, 2, 4]⟩) :=
  ⟨executeStepT_trace, executeStep_sagas_unchanged,
   fun steps sagaID stepName stepID action e0 e1 e2 e3 hf h0 h1 h2 h3 =>
     executeStepT_exhaustion steps sagaID stepName stepID action e0 e1 e2 e3
       hf h0 h1 h2 h3⟩

/-- Witness for C6 at a concrete always-failing action: the trace is exactly
4 invocations with sleeps 1, 2, 4 and a failed step row. -/
theorem C6_retry_backoff_semantics_witness :
    executeStepT [] "s1" "process_media" "t1" (fun _ => .error "boom") =
      ⟨[⟨"t1", "s1", "process_media", "failed", errorResult "boom",
         4, "boom"⟩],
       4, [1, 2, 4]⟩
    ∧ (executeStep ⟨[], []⟩ "s1" "process_media" "t1"
        (fun _ => .error "boom")).sagas = [] :=
  ⟨C6_retry_backoff_semantics.2.2 [] "s1" "process_media" "t1"
     (fun _ => .error "boom") "boom" "boom" "boom" "boom"
     (by decide) rfl rfl rfl rfl,
   C6_retry_backoff_semantics.2.1 ⟨[], []⟩ "s1" "process_media" "t1"
     (fun _ => .error "boom")⟩

/-! ### Saga table update and fold lemmas (C4, C5, C8) -/

theorem mem_updSagas_of_ne (l : List SagaRow) (uid : String)
    (g : SagaRow → SagaRow) (s : SagaRow) (hs : s ∈ l) (hne : s.id ≠ uid) :
    s ∈ updSagas l uid g :=
  List.mem_map.mpr ⟨s, hs, by rw [if_neg hne]⟩

theorem of_mem_updSagas (l : List SagaRow) (uid : String)
    (g : SagaRow → SagaRow) (r : SagaRow) (hr : r ∈ updSagas l uid g) :
    ∃ s ∈ l, r = if s.id = uid then g s else s := by
  obtain ⟨s, hs, hrs⟩ := List.mem_map.mp hr
  exact ⟨s, hs, hrs.symm⟩

theorem updSagas_map_id (l : List SagaRow) (uid : String)
    (g : SagaRow → SagaRow) (hg : ∀ s, (g s).id = s.id) :
    (updSagas l uid g).map (fun s => s.id) = l.map (fun s => s.id) := by
  unfold updSagas
  rw [List.map_map]
  have hcomp : ((fun s : SagaRow => s.id) ∘ fun s =>
      if s.id = uid then g s else s) = fun s : SagaRow => s.id := by
    funext s
    by_cases h : s.id = uid <;> simp [h, hg]
  rw [hcomp]

theorem foldl_preserve {α β : Type} (f : β → α → β) (P : β → Prop)
    (xs : List α) (hpres : ∀ b y, y ∈ xs → P b → P (f b y)) (b : β)
    (hb : P b) : P (xs.foldl f b) := by
  induction xs generalizing b with
  | nil => exact hb
  | cons y ys ih =>
      exact ih (fun b2 z hz hP => hpres b2 z (List.mem_cons_of_mem _ hz) hP)
        _ (hpres b y (List.mem_cons_self _ _) hb)

theorem foldl_establish {α β : Type} (f : β → α → β) (P : β → Prop)
    (k : α → String) (x : α)
    (hestab : ∀ b, P (f b x))
    (hpres : ∀ b y, k y ≠ k x → P b → P (f b y)) :
    ∀ (xs : List α) (b : β), x ∈ xs → (xs.map k).Nodup →
      P (xs.foldl f b) := by
  intro xs
  induction xs with
  | nil => intro b hx; cases hx
  | cons y ys ih =>
      intro b hx hnodup
      rw [List.map_cons, List.nodup_cons] at hnodup
      rcases List.mem_cons.mp hx with rfl | hx2
      · refine foldl_preserve f P ys ?_ (f b x) (hestab b)
        intro b2 z hz hP
        refine hpres b2 z ?_ hP
        intro hkz
        exact hnodup.1 (hkz ▸ List.mem_map_of_mem k hz)
      · exact ih (f b y) hx2 hnodup.2

theorem stepAttemptLoop_frame (stepID : String)
    (action : Nat → Except String Unit) :
    ∀ (rem attempt : Nat) (l : List StepRow) (r0 : StepRow) (lastErr : String),
      l.all (fun r => !(r.id = stepID)) = true → r0.id = stepID →
      ∃ rr : StepRow,
        (stepAttemptLoop (l ++ [r0]) stepID action attempt rem lastErr).steps
            = l ++ [rr]
        ∧ rr.id = stepID ∧ rr.saga_id = r0.saga_id
        ∧ rr.step_name = r0.step_name := by
  intro rem
  induction rem with
  | zero =>
      intro attempt l r0 lastErr hl hr
      refine ⟨{ r0 with
                  status := "failed", result := errorResult lastErr },
              ?_, hr, rfl, rfl⟩
      exact updSteps_append_fresh l r0 stepID _ hl hr
  | succ r ih =>
      intro attempt l r0 lastErr hl hr
      cases ha : action attempt with
      | ok u =>
          by_cases hat : attempt > 0
          · refine ⟨{ r0 with
                        status := "completed", result := "\x7b\x7d",
                        retry_count := attempt, last_error := "" },
                    ?_, hr, rfl, rfl⟩
            simp only [stepAttemptLoop, ha, if_pos hat]
            rw [updSteps_append_fresh l r0 stepID _ hl hr]
            rw [updSteps_append_fresh l ({ r0 with
                  status := "completed", result := "\x7b\x7d" }) stepID _
                hl hr]
          · refine ⟨{ r0 with
                        status := "completed", result := "\x7b\x7d" },
                    ?_, hr, rfl, rfl⟩
            simp only [stepAttemptLoop, ha, if_neg hat]
            rw [updSteps_append_fresh l r0 stepID _ hl hr]
      | error e =>
          obtain ⟨rr, hsteps, hid, hsg, hsn⟩ :=
            ih (attempt + 1) l
              { r0 with
                  retry_count := attempt + 1, last_error := e,
                  status := "executing" } e hl hr
          refine ⟨rr, ?_, hid, hsg, hsn⟩
          simp only [stepAttemptLoop, ha]
          rw [updSteps_append_fresh l r0 stepID _ hl hr]
          exact hsteps

theorem executeStepT_frame (steps : List StepRow)
    (sagaID stepName stepID : String) (action : Nat → Except String Unit)
    (hfresh : steps.all (fun r => !(r.id = stepID)) = true) :
    ∃ rr : StepRow,
      (executeStepT steps sagaID stepName stepID action).steps =
          steps ++ [rr]
      ∧ rr.id = stepID ∧ rr.saga_id = sagaID ∧ rr.step_name = stepName := by
  obtain ⟨rr, hsteps, hid, hsg, hsn⟩ :=
    stepAttemptLoop_frame stepID action (maxRetries + 1) 0 steps
      ⟨stepID, sagaID, stepName, "executing", "\x7b\x7d", 0, ""⟩ "" hfresh rfl
  exact ⟨rr, hsteps, hid, hsg, hsn⟩


/-- A member of a keyed update carrying the key traces back to a source row
with that key, transformed by the update. -/
theorem mem_updSagas_target (l : List SagaRow) (uid : String)
    (g : SagaRow → SagaRow) (r : SagaRow) (hr : r ∈ updSagas l uid g)
    (hid : r.id = uid) :
    ∃ s ∈ l, s.id = uid ∧ r = g s := by
  obtain ⟨s, hs, hre⟩ := of_mem_updSagas _ _ _ r hr
  by_cases h : s.id = uid
  · rw [if_pos h] at hre
    exact ⟨s, hs, h, hre⟩
  · rw [if_neg h] at hre
    subst hre
    exact absurd hid h

/-- Same through two successive keyed updates with the same key. -/
theorem mem_updSagas_twice (l : List SagaRow) (uid : String)
    (g1 g2 : SagaRow → SagaRow) (r : SagaRow)
    (hr : r ∈ updSagas (updSagas l uid g1) uid g2) (hid : r.id = uid) :
    ∃ s ∈ l, s.id = uid ∧ r = g2 (g1 s) := by
  obtain ⟨s1, hs1, h1, hre⟩ := mem_updSagas_target _ _ _ r hr hid
  obtain ⟨s0, hs0, h0, hs1e⟩ :=
    mem_updSagas_target _ _ _ s1 hs1 h1
  refine ⟨s0, hs0, h0, ?_⟩
  rw [hre, hs1e]

/-- A keyed update whose key is not the target id preserves any per-row
property of the rows carrying the target id. -/
theorem updSagas_preserves_prop (l : List SagaRow) (uid : String)
    (g : SagaRow → SagaRow) (hg : ∀ s, (g s).id = s.id) (tid : String)
    (hne : uid ≠ tid) (C : SagaRow → Prop)
    (hP : ∀ r ∈ l, r.id = tid → C r) :
    ∀ r ∈ updSagas l uid g, r.id = tid → C r := by
  intro r hr hid
  obtain ⟨s, hs, hre⟩ := of_mem_updSagas _ _ _ r hr
  by_cases h : s.id = uid
  · rw [if_pos h] at hre
    subst hre
    rw [hg s] at hid
    exact absurd (h.symm.trans hid) hne
  · rw [if_neg h] at hre
    subst hre
    exact hP r hs hid

/-- compensateOnProcessingFailed leaves the state untouched when no active
saga matches the aggregate id. -/
theorem compensate_no_match (st : SagaState) (aggregateID stepID : String)
    (env : ActionEnv) (now : Nat)
    (hfind : findActiveSagaByAggregateID st aggregateID = none) :
    compensateOnProcessingFailed st aggregateID stepID env now = st := by
  unfold compensateOnProcessingFailed
  rw [hfind]

/-- After compensateOnProcessingFailed, every saga row carrying the located
saga's id has status failed and current_step compensate_upload. -/
theorem compensate_marks_failed (st : SagaState) (aggregateID stepID : String)
    (env : ActionEnv) (now : Nat) (saga : SagaRow)
    (hfind : findActiveSagaByAggregateID st aggregateID = some saga) :
    ∀ r ∈ (compensateOnProcessingFailed st aggregateID stepID env now).sagas,
      r.id = saga.id →
      r.status = "failed" ∧ r.current_step = "compensate_upload" := by
  intro r hr hid
  simp only [compensateOnProcessingFailed, hfind, failSaga, executeStep,
    updateSagaStep] at hr
  obtain ⟨s0, hs0, h0, hre⟩ :=
    mem_updSagas_twice _ _ _ _ r hr hid
  rw [hre]
  exact ⟨rfl, rfl⟩

/-- compensateOnProcessingFailed appends exactly one new step record, named
compensate_upload, to the steps table; the pre-existing step rows — their
statuses included — are untouched, so no step is ever marked compensated. -/
theorem compensate_steps_shape (st : SagaState) (aggregateID stepID : String)
    (env : ActionEnv) (now : Nat) (saga : SagaRow)
    (hfind : findActiveSagaByAggregateID st aggregateID = some saga)
    (hfresh : st.steps.all (fun r => !(r.id = stepID)) = true) :
    ∃ rr : StepRow,
      (compensateOnProcessingFailed st aggregateID stepID env now).steps =
          st.steps ++ [rr]
      ∧ rr.id = stepID ∧ rr.saga_id = saga.id
      ∧ rr.step_name = "compensate_upload" := by
  obtain ⟨rr, hsteps, hid, hsg, hsn⟩ :=
    executeStepT_frame st.steps saga.id "compensate_upload" stepID
      env.compensateUpload hfresh
  refine ⟨rr, ?_, hid, hsg, hsn⟩
  simp only [compensateOnProcessingFailed, hfind, failSaga, executeStep,
    updateSagaStep]
  exact hsteps

/-- C5 counterexample: a saga with two completed steps (process_media and
add_to_album) whose compensation succeeds ends with those steps still
completed — no step is ever marked compensated, and the only compensating
action run is the single fixed compensate_upload call recorded as one new
step row — refuting the claimed reverse walk over completed steps. -/
theorem C5_counterexample :
    compensateOnProcessingFailed
        ⟨[⟨"s1", "media_upload", "add_to_album", "in_progress",
           .map "media-A" (.parsed "u1" "p.jpg"), 0, 0, none⟩],
         [⟨"t1", "s1", "process_media", "completed", "\x7b\x7d", 0, ""⟩,
          ⟨"t2", "s1", "add_to_album", "completed", "\x7b\x7d", 0, ""⟩]⟩
        "media-A" "t3"
        ⟨fun _ => .ok (), fun _ => .ok (), fun _ => .ok (), fun _ => .ok ()⟩
        100 =
      ⟨[⟨"s1", "media_upload", "compensate_upload", "failed",
         .map "media-A" (.parsed "u1" "p.jpg"), 0, 100, some 100⟩],
       [⟨"t1", "s1", "process_media", "completed", "\x7b\x7d", 0, ""⟩,
        ⟨"t2", "s1", "add_to_album", "completed", "\x7b\x7d", 0, ""⟩,
        ⟨"t3", "s1", "compensate_upload", "completed", "\x7b\x7d", 0, ""⟩]⟩
    ∧ ((compensateOnProcessingFailed
        ⟨[⟨"s1", "media_upload", "add_to_album", "in_progress",
           .map "media-A" (.parsed "u1" "p.jpg"), 0, 0, none⟩],
         [⟨"t1", "s1", "process_media", "completed", "\x7b\x7d", 0, ""⟩,
          ⟨"t2", "s1", "add_to_album", "completed", "\x7b\x7d", 0, ""⟩]⟩
        "media-A" "t3"
        ⟨fun _ => .ok (), fun _ => .ok (), fun _ => .ok (), fun _ => .ok ()⟩
        100).steps.all (fun r => !(r.status = "compensated"))) = true := by
  constructor <;> decide

/-- C5 (amended): on MediaProcessingFailed the engine locates the saga by
its payload, sets it to compensating with current_step compensate_upload,
runs the single fixed compensate_upload action (the media-command compensate
endpoint) with the usual retry/backoff as one new step record, and then
marks the saga failed; it does not walk the completed steps in reverse —
pre-existing step rows keep their statuses and are never marked
compensated. -/
theorem C5_single_fixed_compensation :
    (∀ (st : SagaState) (aggregateID stepID : String) (env : ActionEnv)
        (now : Nat),
        findActiveSagaByAggregateID st aggregateID = none →
        compensateOnProcessingFailed st aggregateID stepID env now = st)
    ∧ (∀ (st : SagaState) (aggregateID stepID : String) (env : ActionEnv)
        (now : Nat) (saga : SagaRow),
        findActiveSagaByAggregateID st aggregateID = some saga →
        ∀ r ∈ (compensateOnProcessingFailed st aggregateID stepID
            env now).sagas,
          r.id = saga.id →
          r.status = "failed" ∧ r.current_step = "compensate_upload")
    ∧ (∀ (st : SagaState) (aggregateID stepID : String) (env : ActionEnv)
        (now : Nat) (saga : SagaRow),
        findActiveSagaByAggregateID st aggregateID = some saga →
        st.steps.all (fun r => !(r.id = stepID)) = true →
        ∃ rr : StepRow,
          (compensateOnProcessingFailed st aggregateID stepID
              env now).steps = st.steps ++ [rr]
          ∧ rr.id = stepID ∧ rr.saga_id = saga.id
          ∧ rr.step_name = "compensate_upload") :=
  ⟨compensate_no_match,
   fun st aggregateID stepID env now saga hfind =>
     compensate_marks_failed st aggregateID stepID env now saga hfind,
   fun st aggregateID stepID env now saga hfind hfresh =>
     compensate_steps_shape st aggregateID stepID env now saga hfind hfresh⟩

/-- Witness for C5 at concrete inputs: no-op when no saga matches; for a
matched saga the row ends failed at compensate_upload and exactly one fresh
compensate_upload step record is appended. -/
theorem C5_single_fixed_compensation_witness :
    (compensateOnProcessingFailed ⟨[], []⟩ "media-z" "t0"
        ⟨fun _ => .ok (), fun _ => .ok (), fun _ => .ok (), fun _ => .ok ()⟩
        5 = ⟨[], []⟩)
    ∧ ((⟨"s9", "media_upload", "compensate_upload", "failed",
         .map "media-B" .bad, 3, 50, some 50⟩ : SagaRow).status = "failed"
       ∧ (⟨"s9", "media_upload", "compensate_upload", "failed",
           .map "media-B" .bad, 3, 50, some 50⟩ : SagaRow).current_step =
          "compensate_upload")
    ∧ (∃ rr : StepRow,
        (compensateOnProcessingFailed
            ⟨[⟨"s9", "media_upload", "process_media", "started",
               .map "media-B" .bad, 3, 3, none⟩], []⟩
            "media-B" "t7"
            ⟨fun _ => .ok (), fun _ => .ok (), fun _ => .ok (),
             fun _ => .ok ()⟩ 50).steps = [] ++ [rr]
        ∧ rr.id = "t7" ∧ rr.saga_id = "s9"
        ∧ rr.step_name = "compensate_upload") :=
  ⟨C5_single_fixed_compensation.1 ⟨[], []⟩ "media-z" "t0"
     ⟨fun _ => .ok (), fun _ => .ok (), fun _ => .ok (), fun _ => .ok ()⟩
     5 (by decide),
   C5_single_fixed_compensation.2.1
     ⟨[⟨"s9", "media_upload", "process_media", "started",
        .map "media-B" .bad, 3, 3, none⟩], []⟩
     "media-B" "t7"
     ⟨fun _ => .ok (), fun _ => .ok (), fun _ => .ok (), fun _ => .ok ()⟩
     50 ⟨"s9", "media_upload", "process_media", "started",
         .map "media-B" .bad, 3, 3, none⟩ (by decide)
     ⟨"s9", "media_upload", "compensate_upload", "failed",
      .map "media-B" .bad, 3, 50, some 50⟩ (by decide) rfl,
   C5_single_fixed_compensation.2.2
     ⟨[⟨"s9", "media_upload", "process_media", "started",
        .map "media-B" .bad, 3, 3, none⟩], []⟩
     "media-B" "t7"
     ⟨fun _ => .ok (), fun _ => .ok (), fun _ => .ok (), fun _ => .ok ()⟩
     50 ⟨"s9", "media_upload", "process_media", "started",
         .map "media-B" .bad, 3, 3, none⟩ (by decide) (by decide)⟩


theorem updateSagaStep_preserves (st : SagaState) (cs stat : String)
    (p : SagaPayload) (uid : String) (now : Nat) (tid : String)
    (C : SagaRow → Prop) (hne : uid ≠ tid)
    (hP : ∀ r ∈ st.sagas, r.id = tid → C r) :
    ∀ r ∈ (updateSagaStep st cs stat p uid now).sagas, r.id = tid → C r := by
  unfold updateSagaStep
  refine updSagas_preserves_prop st.sagas uid _ ?_ tid hne C hP
  intro s
  rfl

theorem completeSaga_preserves (st : SagaState) (uid : String) (now : Nat)
    (tid : String) (C : SagaRow → Prop) (hne : uid ≠ tid)
    (hP : ∀ r ∈ st.sagas, r.id = tid → C r) :
    ∀ r ∈ (completeSaga st uid now).sagas, r.id = tid → C r := by
  unfold completeSaga
  refine updSagas_preserves_prop st.sagas uid _ ?_ tid hne C hP
  intro s
  rfl

theorem failSaga_preserves (st : SagaState) (uid : String) (now : Nat)
    (tid : String) (C : SagaRow → Prop) (hne : uid ≠ tid)
    (hP : ∀ r ∈ st.sagas, r.id = tid → C r) :
    ∀ r ∈ (failSaga st uid now).sagas, r.id = tid → C r := by
  unfold failSaga
  refine updSagas_preserves_prop st.sagas uid _ ?_ tid hne C hP
  intro s
  rfl

theorem updateSagaStep_map_id (st : SagaState) (cs stat : String)
    (p : SagaPayload) (uid : String) (now : Nat) :
    (updateSagaStep st cs stat p uid now).sagas.map (fun s => s.id) =
      st.sagas.map (fun s => s.id) := by
  unfold updateSagaStep
  refine updSagas_map_id st.sagas uid _ ?_
  intro s
  rfl

theorem completeSaga_map_id (st : SagaState) (uid : String) (now : Nat) :
    (completeSaga st uid now).sagas.map (fun s => s.id) =
      st.sagas.map (fun s => s.id) := by
  unfold completeSaga
  refine updSagas_map_id st.sagas uid _ ?_
  intro s
  rfl

theorem failSaga_map_id (st : SagaState) (uid : String) (now : Nat) :
    (failSaga st uid now).sagas.map (fun s => s.id) =
      st.sagas.map (fun s => s.id) := by
  unfold failSaga
  refine updSagas_map_id st.sagas uid _ ?_
  intro s
  rfl

/-- Processing a snapshot row at add_to_album completes every saga row
carrying its id, whatever the notification step's outcome. -/
theorem advanceOne_completes (env : ActionEnv) (f : String → String)
    (now : Nat) (x : SagaRow) (hstep : x.current_step = "add_to_album") :
    ∀ b : SagaState, ∀ r ∈ (advanceOneOnAlbumAdded env f now b x).sagas,
      r.id = x.id →
      r.status = "completed" ∧ r.current_step = "send_notification" := by
  intro b r hr hid
  simp only [advanceOneOnAlbumAdded, if_pos hstep, completeSaga, executeStep,
    updateSagaStep] at hr
  obtain ⟨s0, hs0, h0, hre⟩ := mem_updSagas_twice _ _ _ _ r hr hid
  rw [hre]
  exact ⟨rfl, rfl⟩

/-- Processing a snapshot row with a different id preserves any per-row
property of the rows carrying the target id. -/
theorem advanceOne_preserves (env : ActionEnv) (f : String → String)
    (now : Nat) (tid : String) (C : SagaRow → Prop) (b : SagaState)
    (y : SagaRow) (hne : y.id ≠ tid)
    (hP : ∀ r ∈ b.sagas, r.id = tid → C r) :
    ∀ r ∈ (advanceOneOnAlbumAdded env f now b y).sagas, r.id = tid → C r := by
  unfold advanceOneOnAlbumAdded
  by_cases hstep : y.current_step = "add_to_album"
  · rw [if_pos hstep]
    exact completeSaga_preserves _ _ _ tid C hne
      (updateSagaStep_preserves b _ _ _ _ _ tid C hne hP)
  · rw [if_neg hstep]
    exact hP

/-- advanceSagaOnAlbumAdded changes no row ids and drops no rows. -/
theorem advanceOnAlbumAdded_ids (st : SagaState) (env : ActionEnv)
    (f : String → String) (now : Nat) :
    (advanceSagaOnAlbumAdded st env f now).sagas.map (fun s => s.id) =
      st.sagas.map (fun s => s.id) := by
  unfold advanceSagaOnAlbumAdded
  refine foldl_preserve _
    (fun b => b.sagas.map (fun s => s.id) = st.sagas.map (fun s => s.id))
    _ ?_ st rfl
  intro b y hy hP
  unfold advanceOneOnAlbumAdded
  by_cases hstep : y.current_step = "add_to_album"
  · rw [if_pos hstep]
    rw [completeSaga_map_id, show (executeStep (updateSagaStep b
        "send_notification" "in_progress" y.payload y.id now) y.id
        "send_notification" (f y.id)
        (sendNotificationAction y.payload env)).sagas =
        (updateSagaStep b "send_notification" "in_progress" y.payload y.id
          now).sagas from rfl, updateSagaStep_map_id]
    exact hP
  · rw [if_neg hstep]
    exact hP

/-- Every active saga sitting at add_to_album is advanced and completed by
one MediaAddedToAlbum observation, regardless of whose album the event was
about and regardless of the notification outcome. -/
theorem albumAdded_completes_all (st : SagaState) (env : ActionEnv)
    (f : String → String) (now : Nat) (x : SagaRow) (hx : x ∈ st.sagas)
    (hactive : isActiveStatus x.status = true)
    (hstep : x.current_step = "add_to_album")
    (hnodup : (st.sagas.map (fun s => s.id)).Nodup) :
    ∃ r ∈ (advanceSagaOnAlbumAdded st env f now).sagas,
      r.id = x.id ∧ r.status = "completed"
      ∧ r.current_step = "send_notification" := by
  have hall : ∀ r ∈ (advanceSagaOnAlbumAdded st env f now).sagas,
      r.id = x.id →
      r.status = "completed" ∧ r.current_step = "send_notification" := by
    unfold advanceSagaOnAlbumAdded
    refine foldl_establish (advanceOneOnAlbumAdded env f now)
      (fun b => ∀ r ∈ b.sagas, r.id = x.id →
        r.status = "completed" ∧ r.current_step = "send_notification")
      (fun s => s.id) x
      (fun b => advanceOne_completes env f now x hstep b)
      (fun b y hne hP => advanceOne_preserves env f now x.id _ b y hne hP)
      (listActiveSagas st) st
      (List.mem_filter.mpr ⟨hx, hactive⟩)
      (((List.filter_sublist st.sagas).map (fun s => s.id)).nodup hnodup)
  have hmemid : x.id ∈ (advanceSagaOnAlbumAdded st env f now).sagas.map
      (fun s => s.id) := by
    rw [advanceOnAlbumAdded_ids]
    exact List.mem_map_of_mem _ hx
  obtain ⟨r, hr, hrid⟩ := List.mem_map.mp hmemid
  exact ⟨r, hr, hrid, hall r hr hrid⟩

/-- C4 counterexample: on MediaAddedToAlbum for album-X, a saga whose
payload names media-A (not album-X) is advanced and immediately marked
completed even though its send_notification action failed every attempt —
its only step row has status failed — and observing NotificationSent changes
nothing, refuting that completion waits for the NotificationSent trigger,
that the saga is located via its payload identifier, and that a completed
saga has all step rows completed. -/
theorem C4_counterexample :
    HandleEvent
        ⟨[⟨"s1", "media_upload", "add_to_album", "in_progress",
           .map "media-A" (.parsed "u1" "p.jpg"), 0, 0, none⟩], []⟩
        "MediaAddedToAlbum" "album-X" .bad
        ⟨"sgX", "tX", fun _ => "t9"⟩
        ⟨fun _ => .ok (), fun _ => .ok (), fun _ => .error "notify down",
         fun _ => .ok ()⟩ 50 =
      ⟨[⟨"s1", "media_upload", "send_notification", "completed",
         .map "media-A" (.parsed "u1" "p.jpg"), 0, 50, some 50⟩],
       [⟨"t9", "s1", "send_notification", "failed",
         errorResult "notify down", 4, "notify down"⟩]⟩
    ∧ HandleEvent
        ⟨[⟨"s1", "media_upload", "add_to_album", "in_progress",
           .map "media-A" (.parsed "u1" "p.jpg"), 0, 0, none⟩], []⟩
        "NotificationSent" "notif-1" .bad
        ⟨"sgX", "tX", fun _ => "t9"⟩
        ⟨fun _ => .ok (), fun _ => .ok (), fun _ => .error "notify down",
         fun _ => .ok ()⟩ 60 =
      ⟨[⟨"s1", "media_upload", "add_to_album", "in_progress",
         .map "media-A" (.parsed "u1" "p.jpg"), 0, 0, none⟩], []⟩
    ∧ "media-A" ≠ "album-X" := by
  refine ⟨?_, ?_, ?_⟩ <;> decide

/-- C4 (amended): on MediaProcessed the engine does locate the saga through
the media aggregate id stored in its payload (no match, no change); but on
MediaAddedToAlbum it advances every active saga whose current_step is
add_to_album — with no payload matching — dispatches send_notification, and
completes the saga immediately whatever the step outcome; NotificationSent
is never consulted by HandleEvent. -/
theorem C4_completion_semantics :
    (∀ (st : SagaState) (aggregateID : String) (data : UploadData)
        (ids : IdSupply) (env : ActionEnv) (now : Nat),
        HandleEvent st "NotificationSent" aggregateID data ids env now = st)
    ∧ (∀ (st : SagaState) (env : ActionEnv) (f : String → String) (now : Nat)
        (x : SagaRow),
        x ∈ st.sagas → isActiveStatus x.status = true →
        x.current_step = "add_to_album" →
        (st.sagas.map (fun s => s.id)).Nodup →
        ∃ r ∈ (advanceSagaOnAlbumAdded st env f now).sagas,
          r.id = x.id ∧ r.status = "completed"
          ∧ r.current_step = "send_notification")
    ∧ (∀ (st : SagaState) (aggregateID stepID : String) (env : ActionEnv)
        (now : Nat),
        findActiveSagaByAggregateID st aggregateID = none →
        advanceSagaOnProcessed st aggregateID stepID env now = st) :=
  ⟨fun _ _ _ _ _ _ => rfl,
   fun st env f now x hx hactive hstep hnodup =>
     albumAdded_completes_all st env f now x hx hactive hstep hnodup,
   fun st aggregateID stepID env now hfind => by
     unfold advanceSagaOnProcessed
     rw [hfind]⟩

/-- Witness for C4 at concrete inputs: the saga of the counterexample state
is completed by one MediaAddedToAlbum dispatch, and a MediaProcessed event
with no matching saga changes nothing. -/
theorem C4_completion_semantics_witness :
    HandleEvent ⟨[], []⟩ "NotificationSent" "a" .bad
        ⟨"sg", "t", fun _ => "t"⟩
        ⟨fun _ => .ok (), fun _ => .ok (), fun _ => .ok (), fun _ => .ok ()⟩
        1 = ⟨[], []⟩
    ∧ (∃ r ∈ (advanceSagaOnAlbumAdded
        ⟨[⟨"s2", "media_upload", "add_to_album", "in_progress",
           .map "media-C" (.parsed "u2" "q.png"), 0, 0, none⟩], []⟩
        ⟨fun _ => .ok (), fun _ => .ok (), fun _ => .ok (), fun _ => .ok ()⟩
        (fun _ => "t8") 70).sagas,
        r.id = "s2" ∧ r.status = "completed"
        ∧ r.current_step = "send_notification")
    ∧ advanceSagaOnProcessed ⟨[], []⟩ "media-D" "t5"
        ⟨fun _ => .ok (), fun _ => .ok (), fun _ => .ok (), fun _ => .ok ()⟩
        9 = ⟨[], []⟩ :=
  ⟨C4_completion_semantics.1 ⟨[], []⟩ "a" .bad ⟨"sg", "t", fun _ => "t"⟩
     ⟨fun _ => .ok (), fun _ => .ok (), fun _ => .ok (), fun _ => .ok ()⟩ 1,
   C4_completion_semantics.2.1
     ⟨[⟨"s2", "media_upload", "add_to_album", "in_progress",
        .map "media-C" (.parsed "u2" "q.png"), 0, 0, none⟩], []⟩
     ⟨fun _ => .ok (), fun _ => .ok (), fun _ => .ok (), fun _ => .ok ()⟩
     (fun _ => "t8") 70
     ⟨"s2", "media_upload", "add_to_album", "in_progress",
      .map "media-C" (.parsed "u2" "q.png"), 0, 0, none⟩
     (by decide) (by decide) rfl (by decide),
   C4_completion_semantics.2.2 ⟨[], []⟩ "media-D" "t5"
     ⟨fun _ => .ok (), fun _ => .ok (), fun _ => .ok (), fun _ => .ok ()⟩
     9 (by decide)⟩


/-- A row whose id differs from the detected saga's passes through
handleStuckSaga untouched. -/
theorem handleStuck_mem (env : ActionEnv) (f : String → String) (now : Nat)
    (b : SagaState) (y s : SagaRow) (hne : s.id ≠ y.id)
    (hs : s ∈ b.sagas) : s ∈ (handleStuckSaga env f now b y).sagas := by
  unfold handleStuckSaga
  split
  · split
    · exact hs
    · refine ?_
      show s ∈ (failSaga _ y.id now).sagas
      unfold failSaga
      refine mem_updSagas_of_ne _ y.id _ s ?_ hne
      split
      · exact hs
      · exact hs
  · unfold failSaga
    exact mem_updSagas_of_ne _ y.id _ s hs hne
  · exact hs

/-- handleStuckSaga with a different key preserves per-row properties of
the rows carrying the target id. -/
theorem handleStuck_preserves (env : ActionEnv) (f : String → String)
    (now : Nat) (tid : String) (C : SagaRow → Prop) (b : SagaState)
    (y : SagaRow) (hne : y.id ≠ tid)
    (hP : ∀ r ∈ b.sagas, r.id = tid → C r) :
    ∀ r ∈ (handleStuckSaga env f now b y).sagas, r.id = tid → C r := by
  unfold handleStuckSaga
  split
  · split
    · exact hP
    · refine failSaga_preserves _ _ _ tid C hne ?_
      split
      · exact hP
      · exact hP
  · exact failSaga_preserves _ _ _ tid C hne hP
  · exact hP

/-- handleStuckSaga changes no row ids and drops no rows. -/
theorem handleStuck_map_id (env : ActionEnv) (f : String → String)
    (now : Nat) (b : SagaState) (y : SagaRow) :
    (handleStuckSaga env f now b y).sagas.map (fun s => s.id) =
      b.sagas.map (fun s => s.id) := by
  unfold handleStuckSaga
  split
  · split
    · rfl
    · rw [failSaga_map_id]
      split
      · rfl
      · rfl
  · rw [failSaga_map_id]
  · rfl

/-- A stuck in_progress saga is failed by its own iteration, whatever the
starting state. -/
theorem handleStuck_fails_inprogress (env : ActionEnv) (f : String → String)
    (now : Nat) (x : SagaRow) (hst : x.status = "in_progress") :
    ∀ b : SagaState, ∀ r ∈ (handleStuckSaga env f now b x).sagas,
      r.id = x.id → r.status = "failed" := by
  intro b r hr hid
  unfold handleStuckSaga at hr
  split at hr
  next heq => rw [hst] at heq; exact absurd heq (by decide)
  next heq =>
    obtain ⟨s, hsmem, hsid, hre⟩ := mem_updSagas_target _ _ _ r hr hid
    rw [hre]
  next h1 h2 => exact absurd hst h2

/-- A stuck compensating saga with a parseable payload is failed by its own
iteration, whatever the starting state. -/
theorem handleStuck_fails_compensating (env : ActionEnv)
    (f : String → String) (now : Nat) (x : SagaRow)
    (hst : x.status = "compensating") (aggId : String) (d : UploadData)
    (hp : x.payload = .map aggId d) :
    ∀ b : SagaState, ∀ r ∈ (handleStuckSaga env f now b x).sagas,
      r.id = x.id → r.status = "failed" := by
  intro b r hr hid
  unfold handleStuckSaga at hr
  split at hr
  · split at hr
    next heq => rw [hp] at heq; exact absurd heq (by simp)
    next heq =>
      obtain ⟨s, hsmem, hsid, hre⟩ := mem_updSagas_target _ _ _ r hr hid
      rw [hre]
  next heq => rw [hst] at heq; exact absurd heq (by decide)
  next h1 h2 => exact absurd hst h1

/-- checkStuckSagas changes no row ids and drops no rows. -/
theorem checkStuck_ids (st : SagaState) (thr : Nat) (env : ActionEnv)
    (f : String → String) (now : Nat) :
    (checkStuckSagas st thr env f now).sagas.map (fun s => s.id) =
      st.sagas.map (fun s => s.id) := by
  unfold checkStuckSagas
  refine foldl_preserve _
    (fun b => b.sagas.map (fun s => s.id) = st.sagas.map (fun s => s.id))
    _ ?_ st rfl
  intro b y hy hP
  rw [handleStuck_map_id]
  exact hP

/-- A saga the ListStuckSagas filter does not select — wrong status (e.g.
started, completed, failed) or not old enough — is left untouched by the
detector. -/
theorem checkStuck_untouched (st : SagaState) (thr : Nat) (env : ActionEnv)
    (f : String → String) (now : Nat) (s : SagaRow) (hs : s ∈ st.sagas)
    (hsel : (isStuckStatus s.status && s.updated_at < thr) = false)
    (hnodup : (st.sagas.map (fun x => x.id)).Nodup) :
    s ∈ (checkStuckSagas st thr env f now).sagas := by
  unfold checkStuckSagas
  refine foldl_preserve _ (fun b => s ∈ b.sagas) _ ?_ st hs
  intro b y hy hP
  have hys : y ∈ st.sagas := (List.mem_filter.mp hy).1
  have hyne : s.id ≠ y.id := by
    intro hEq
    have hsy : s = y :=
      List.inj_on_of_nodup_map hnodup hs hys hEq
    have h2 := (List.mem_filter.mp hy).2
    rw [← hsy] at h2
    rw [h2] at hsel
    exact absurd hsel (by decide)
  exact handleStuck_mem env f now b y s hyne hP

/-- Every stuck in_progress saga is failed by one detector pass. -/
theorem checkStuck_fails_inprogress (st : SagaState) (thr : Nat)
    (env : ActionEnv) (f : String → String) (now : Nat) (s : SagaRow)
    (hs : s ∈ st.sagas) (hstat : s.status = "in_progress")
    (hold : s.updated_at < thr)
    (hnodup : (st.sagas.map (fun x => x.id)).Nodup) :
    ∃ r ∈ (checkStuckSagas st thr env f now).sagas,
      r.id = s.id ∧ r.status = "failed" := by
  have hall : ∀ r ∈ (checkStuckSagas st thr env f now).sagas,
      r.id = s.id → r.status = "failed" := by
    unfold checkStuckSagas
    refine foldl_establish (handleStuckSaga env f now)
      (fun b => ∀ r ∈ b.sagas, r.id = s.id → r.status = "failed")
      (fun x => x.id) s
      (fun b => handleStuck_fails_inprogress env f now s hstat b)
      (fun b y hne hP => handleStuck_preserves env f now s.id _ b y hne hP)
      (listStuckSagas st thr) st
      (List.mem_filter.mpr ⟨hs, by
        have hsb : isStuckStatus s.status = true := by rw [hstat]; decide
        simp [hsb, hold]⟩)
      (((List.filter_sublist st.sagas).map (fun x => x.id)).nodup hnodup)
  have hmemid : s.id ∈ (checkStuckSagas st thr env f now).sagas.map
      (fun x => x.id) := by
    rw [checkStuck_ids]
    exact List.mem_map_of_mem _ hs
  obtain ⟨r, hr, hrid⟩ := List.mem_map.mp hmemid
  exact ⟨r, hr, hrid, hall r hr hrid⟩

/-- Every stuck compensating saga with a parseable payload is failed by one
detector pass (after the single compensation retry). -/
theorem checkStuck_fails_compensating (st : SagaState) (thr : Nat)
    (env : ActionEnv) (f : String → String) (now : Nat) (s : SagaRow)
    (hs : s ∈ st.sagas) (hstat : s.status = "compensating")
    (aggId : String) (d : UploadData) (hp : s.payload = .map aggId d)
    (hold : s.updated_at < thr)
    (hnodup : (st.sagas.map (fun x => x.id)).Nodup) :
    ∃ r ∈ (checkStuckSagas st thr env f now).sagas,
      r.id = s.id ∧ r.status = "failed" := by
  have hall : ∀ r ∈ (checkStuckSagas st thr env f now).sagas,
      r.id = s.id → r.status = "failed" := by
    unfold checkStuckSagas
    refine foldl_establish (handleStuckSaga env f now)
      (fun b => ∀ r ∈ b.sagas, r.id = s.id → r.status = "failed")
      (fun x => x.id) s
      (fun b => handleStuck_fails_compensating env f now s hstat aggId d
        hp b)
      (fun b y hne hP => handleStuck_preserves env f now s.id _ b y hne hP)
      (listStuckSagas st thr) st
      (List.mem_filter.mpr ⟨hs, by
        have hsb : isStuckStatus s.status = true := by rw [hstat]; decide
        simp [hsb, hold]⟩)
      (((List.filter_sublist st.sagas).map (fun x => x.id)).nodup hnodup)
  have hmemid : s.id ∈ (checkStuckSagas st thr env f now).sagas.map
      (fun x => x.id) := by
    rw [checkStuck_ids]
    exact List.mem_map_of_mem _ hs
  obtain ⟨r, hr, hrid⟩ := List.mem_map.mp hmemid
  exact ⟨r, hr, hrid, hall r hr hrid⟩

/-- C8 counterexample: a saga stuck in status started — created by
startMediaUploadSaga and never advanced because MediaProcessed never arrived
— is not selected by the detector however old its updated_at is: the
detector pass leaves the state unchanged and the saga remains in the
non-terminal status started, refuting the claimed eventual termination of
every non-terminal saga. -/
theorem C8_counterexample :
    checkStuckSagas
        ⟨[⟨"s1", "media_upload", "process_media", "started",
           .map "media-A" (.parsed "u1" "f"), 0, 0, none⟩], []⟩
        1000000
        ⟨fun _ => .ok (), fun _ => .ok (), fun _ => .ok (), fun _ => .ok ()⟩
        (fun _ => "t") 999 =
      ⟨[⟨"s1", "media_upload", "process_media", "started",
         .map "media-A" (.parsed "u1" "f"), 0, 0, none⟩], []⟩
    ∧ (0 : Nat) < 1000000
    ∧ "started" ≠ "completed" ∧ "started" ≠ "failed" := by
  refine ⟨?_, ?_, ?_, ?_⟩ <;> decide

/-- C8 (amended): the detector selects exactly the sagas whose status is
in_progress or compensating with updated_at older than the threshold; every
selected in_progress saga, and every selected compensating saga whose
payload parses, is forced to status failed in one pass (the latter after one
compensation retry); a saga the filter does not select — in particular one
stuck in status started, or one not yet past the age threshold — is left
untouched, so termination is not guaranteed for sagas resting in started. -/
theorem C8_stuck_detector_semantics :
    (∀ (st : SagaState) (thr : Nat) (env : ActionEnv)
        (f : String → String) (now : Nat) (s : SagaRow),
        s ∈ st.sagas →
        (isStuckStatus s.status && s.updated_at < thr) = false →
        (st.sagas.map (fun x => x.id)).Nodup →
        s ∈ (checkStuckSagas st thr env f now).sagas)
    ∧ (∀ (st : SagaState) (thr : Nat) (env : ActionEnv)
        (f : String → String) (now : Nat) (s : SagaRow),
        s ∈ st.sagas → s.status = "in_progress" → s.updated_at < thr →
        (st.sagas.map (fun x => x.id)).Nodup →
        ∃ r ∈ (checkStuckSagas st thr env f now).sagas,
          r.id = s.id ∧ r.status = "failed")
    ∧ (∀ (st : SagaState) (thr : Nat) (env : ActionEnv)
        (f : String → String) (now : Nat) (s : SagaRow)
        (aggId : String) (d : UploadData),
        s ∈ st.sagas → s.status = "compensating" →
        s.payload = .map aggId d → s.updated_at < thr →
        (st.sagas.map (fun x => x.id)).Nodup →
        ∃ r ∈ (checkStuckSagas st thr env f now).sagas,
          r.id = s.id ∧ r.status = "failed") :=
  ⟨fun st thr env f now s hs hsel hnodup =>
     checkStuck_untouched st thr env f now s hs hsel hnodup,
   fun st thr env f now s hs hstat hold hnodup =>
     checkStuck_fails_inprogress st thr env f now s hs hstat hold hnodup,
   fun st thr env f now s aggId d hs hstat hp hold hnodup =>
     checkStuck_fails_compensating st thr env f now s hs hstat aggId d hp
       hold hnodup⟩

/-- Witness for C8 at concrete inputs: a started saga survives a detector
pass untouched; a stale in_progress saga and a stale compensating saga are
both forced to failed. -/
theorem C8_stuck_detector_semantics_witness :
    ((⟨"s1", "media_upload", "process_media", "started",
       .map "media-A" (.parsed "u1" "f"), 0, 0, none⟩ : SagaRow) ∈
      (checkStuckSagas
        ⟨[⟨"s1", "media_upload", "process_media", "started",
           .map "media-A" (.parsed "u1" "f"), 0, 0, none⟩], []⟩
        1000000
        ⟨fun _ => .ok (), fun _ => .ok (), fun _ => .ok (), fun _ => .ok ()⟩
        (fun _ => "t") 999).sagas)
    ∧ (∃ r ∈ (checkStuckSagas
        ⟨[⟨"s2", "media_upload", "add_to_album", "in_progress",
           .map "media-B" .bad, 0, 7, none⟩], []⟩
        500
        ⟨fun _ => .ok (), fun _ => .ok (), fun _ => .ok (), fun _ => .ok ()⟩
        (fun _ => "t") 900).sagas, r.id = "s2" ∧ r.status = "failed")
    ∧ (∃ r ∈ (checkStuckSagas
        ⟨[⟨"s3", "media_upload", "compensate_upload", "compensating",
           .map "media-C" .bad, 0, 7, none⟩], []⟩
        500
        ⟨fun _ => .ok (), fun _ => .ok (), fun _ => .ok (), fun _ => .ok ()⟩
        (fun _ => "t") 900).sagas, r.id = "s3" ∧ r.status = "failed") :=
  ⟨C8_stuck_detector_semantics.1
     ⟨[⟨"s1", "media_upload", "process_media", "started",
        .map "media-A" (.parsed "u1" "f"), 0, 0, none⟩], []⟩
     1000000
     ⟨fun _ => .ok (), fun _ => .ok (), fun _ => .ok (), fun _ => .ok ()⟩
     (fun _ => "t") 999
     ⟨"s1", "media_upload", "process_media", "started",
      .map "media-A" (.parsed "u1" "f"), 0, 0, none⟩
     (by decide) (by decide) (by decide),
   C8_stuck_detector_semantics.2.1
     ⟨[⟨"s2", "media_upload", "add_to_album", "in_progress",
        .map "media-B" .bad, 0, 7, none⟩], []⟩
     500
     ⟨fun _ => .ok (), fun _ => .ok (), fun _ => .ok (), fun _ => .ok ()⟩
     (fun _ => "t") 900
     ⟨"s2", "media_upload", "add_to_album", "in_progress",
      .map "media-B" .bad, 0, 7, none⟩
     (by decide) rfl (by decide) (by decide),
   C8_stuck_detector_semantics.2.2
     ⟨[⟨"s3", "media_upload", "compensate_upload", "compensating",
        .map "media-C" .bad, 0, 7, none⟩], []⟩
     500
     ⟨fun _ => .ok (), fun _ => .ok (), fun _ => .ok (), fun _ => .ok ()⟩
     (fun _ => "t") 900
     ⟨"s3", "media_upload", "compensate_upload", "compensating",
      .map "media-C" .bad, 0, 7, none⟩
     "media-C" .bad
     (by decide) rfl rfl (by decide) (by decide)⟩

end Micro
